import Mathlib

/-!
Verification development for the calendarBridge reconciliation engine.

The definitions below are a shallow embedding of the Python sources
src/safe_sync.py and src/cleanup_duplicates.py.  Pure functions of the
source become Lean functions; the stateful main loop becomes explicit
state passing over a SyncAcc accumulator; every remote API call goes
through an explicit oracle (ApiOracle) whose results model the final
outcome of the request_with_backoff wrapper (ok / terminal HTTP status
after retries / other exception).  Wall-clock sleeping, logging and file
I/O are not modelled: they do not affect the data flow the claims are
about.  Python dicts are modelled as insertion-ordered association lists
(AList) with dict lookup/overwrite/delete semantics; Python string
truthiness tests on optional strings are modelled by optTruthy.
-/

namespace CalendarBridge

/-! ### Association lists modelling Python dicts -/

abbrev AList (α : Type) := List (String × α)

def alGet {α : Type} : AList α → String → Option α
  | [], _ => none
  | (k, v) :: rest, key => if k = key then some v else alGet rest key

def alSet {α : Type} : AList α → String → α → AList α
  | [], key, val => [(key, val)]
  | (k, v) :: rest, key, val =>
    if k = key then (k, val) :: rest else (k, v) :: alSet rest key val

def alErase {α : Type} : AList α → String → AList α
  | [], _ => []
  | (k, v) :: rest, key =>
    if k = key then alErase rest key else (k, v) :: alErase rest key

def alKeys {α : Type} (m : AList α) : List String := m.map Prod.fst

/-- Python truthiness of an optional string: None and the empty string are falsy. -/
def optTruthy : Option String → Option String
  | some s => if s = "" then none else some s
  | none => none

/-! ### Character-list string helpers (kernel-reducible stand-ins for the
Python string operations used by the sources) -/

def digitChar (n : Nat) : Char := Char.ofNat (48 + n)

def pad2 (n : Nat) : String := ⟨[digitChar ((n / 10) % 10), digitChar (n % 10)]⟩

def pad4 (n : Nat) : String :=
  ⟨[digitChar ((n / 1000) % 10), digitChar ((n / 100) % 10),
    digitChar ((n / 10) % 10), digitChar (n % 10)]⟩

def splitCharAux (c : Char) : List Char → List Char → List (List Char)
  | [], acc => [acc.reverse]
  | x :: xs, acc =>
    if x = c then acc.reverse :: splitCharAux c xs []
    else splitCharAux c xs (x :: acc)

/-- Python str.split(sep) for a one-character separator. -/
def strSplit (s : String) (c : Char) : List String :=
  (splitCharAux c s.data []).map (fun l => ⟨l⟩)

def strContains (s : String) (c : Char) : Bool := s.data.contains c

def strTake (s : String) (n : Nat) : String := ⟨s.data.take n⟩

def strDropLast (s : String) : String := ⟨s.data.dropLast⟩

def strEndsWithChar (s : String) (c : Char) : Bool := s.data.getLast? = some c

def isSpaceChar (c : Char) : Bool := c = ' ' ∨ c = '\t' ∨ c = '\n' ∨ c = '\r'

/-- Python str.strip(). -/
def strStrip (s : String) : String :=
  ⟨((s.data.dropWhile isSpaceChar).reverse.dropWhile isSpaceChar).reverse⟩

/-- Python str.upper() restricted to ASCII, which is all the sources compare. -/
def strUpper (s : String) : String := ⟨s.data.map Char.toUpper⟩

/-! ### Civil-calendar arithmetic (datetime / date / timedelta semantics) -/

/-- Days since 1970-01-01 of a civil date (standard civil-from-days inverse
companion; all divisions here act on non-negative operands for the dates the
program handles). -/
def daysFromCivil (y : Int) (m d : Nat) : Int :=
  let y2 : Int := if m ≤ 2 then y - 1 else y
  let era : Int := (if 0 ≤ y2 then y2 else y2 - 399) / 400
  let yoe : Int := y2 - era * 400
  let mp : Nat := (m + 9) % 12
  let doy : Int := ((153 * mp + 2) / 5 : Nat) + d - 1
  let doe : Int := yoe * 365 + yoe / 4 - yoe / 100 + doy
  era * 146097 + doe - 719468

/-- Civil date from days since 1970-01-01. -/
def civilFromDays (z0 : Int) : Int × Nat × Nat :=
  let z : Int := z0 + 719468
  let era : Int := (if 0 ≤ z then z else z - 146096) / 146097
  let doe : Int := z - era * 146097
  let yoe : Int := (doe - doe / 1460 + doe / 36524 - doe / 146096) / 365
  let y : Int := yoe + era * 400
  let doy : Int := doe - (365 * yoe + yoe / 4 - yoe / 100)
  let mp : Int := (5 * doy + 2) / 153
  let d : Nat := (doy - (153 * mp + 2) / 5 + 1).toNat
  let m : Nat := (if mp < 10 then mp + 3 else mp - 9).toNat
  (if m ≤ 2 then y + 1 else y, m, d)

/-- A Python datetime/date value as the sync scripts see it: a plain date,
a naive datetime, or a timezone-aware datetime with a fixed UTC offset in
minutes. -/
inductive DateTimeVal where
  | pureDate (y m d : Nat)
  | naive (y m d hh mi ss : Nat)
  | aware (y m d hh mi ss : Nat) (offMin : Int)
deriving DecidableEq, Repr

def dateIso (y m d : Nat) : String := pad4 y ++ "-" ++ pad2 m ++ "-" ++ pad2 d

def timeIso (hh mi ss : Nat) : String := pad2 hh ++ ":" ++ pad2 mi ++ ":" ++ pad2 ss

/-- The ±HH:MM suffix Python's datetime.isoformat prints for a fixed-offset
timezone. -/
def offsetSuffix (offMin : Int) : String :=
  (if offMin < 0 then "-" else "+") ++ pad2 (offMin.natAbs / 60) ++ ":" ++ pad2 (offMin.natAbs % 60)

/-- safe_sync.to_iso: convert datetime/date to an ISO 8601 string.  A plain
date prints as the date; an aware datetime prints with its offset suffix; a
naive datetime is reinterpreted as UTC (replace tzinfo=timezone.utc) and so
prints with a +00:00 suffix. -/
def to_iso : DateTimeVal → String
  | .pureDate y m d => dateIso y m d
  | .aware y m d hh mi ss off => dateIso y m d ++ "T" ++ timeIso hh mi ss ++ offsetSuffix off
  | .naive y m d hh mi ss => dateIso y m d ++ "T" ++ timeIso hh mi ss ++ "+00:00"

/-- Python str() of the same values (datetime.__str__ uses a space separator);
only ever compared for equality inside the content hash. -/
def pyStr : DateTimeVal → String
  | .pureDate y m d => dateIso y m d
  | .naive y m d hh mi ss => dateIso y m d ++ " " ++ timeIso hh mi ss
  | .aware y m d hh mi ss off => dateIso y m d ++ " " ++ timeIso hh mi ss ++ offsetSuffix off

/-- safe_sync.normalize_to_date: the civil date of a datetime/date value. -/
def normalize_to_date : DateTimeVal → Nat × Nat × Nat
  | .pureDate y m d => (y, m, d)
  | .naive y m d _ _ _ => (y, m, d)
  | .aware y m d _ _ _ _ => (y, m, d)

def dateOfTriple (t : Nat × Nat × Nat) : DateTimeVal := .pureDate t.1 t.2.1 t.2.2

def dateIso3 (t : Nat × Nat × Nat) : String := dateIso t.1 t.2.1 t.2.2

/-- date + timedelta(days=n). -/
def addDaysDate (t : Nat × Nat × Nat) (n : Int) : Nat × Nat × Nat :=
  let r := civilFromDays (daysFromCivil t.1 t.2.1 t.2.2 + n)
  (r.1.toNat, r.2.1, r.2.2)

def dateLe (a b : Nat × Nat × Nat) : Prop :=
  daysFromCivil a.1 a.2.1 a.2.2 ≤ daysFromCivil b.1 b.2.1 b.2.2

instance (a b : Nat × Nat × Nat) : Decidable (dateLe a b) := by
  unfold dateLe; infer_instance

/-- datetime + timedelta: wall-clock addition of seconds, carrying into the
calendar; a fixed-offset aware datetime keeps its offset (Python adds
timedeltas to the wall-clock fields). -/
def wallAddSeconds (y m d hh mi ss : Nat) (n : Int) : Nat × Nat × Nat × Nat × Nat × Nat :=
  let tot : Int := daysFromCivil y m d * 86400 + (hh * 3600 + mi * 60 + ss : Nat) + n
  let rem : Int := tot % 86400
  let days : Int := (tot - rem) / 86400
  let r := civilFromDays days
  let remN : Nat := rem.toNat
  (r.1.toNat, r.2.1, r.2.2, remN / 3600, (remN % 3600) / 60, remN % 60)

def addSecondsDT (dt : DateTimeVal) (n : Int) : DateTimeVal :=
  match dt with
  | .pureDate y m d =>
    let r := addDaysDate (y, m, d) (n / 86400)
    .pureDate r.1 r.2.1 r.2.2
  | .naive y m d hh mi ss =>
    let r := wallAddSeconds y m d hh mi ss n
    .naive r.1 r.2.1 r.2.2.1 r.2.2.2.1 r.2.2.2.2.1 r.2.2.2.2.2
  | .aware y m d hh mi ss off =>
    let r := wallAddSeconds y m d hh mi ss n
    .aware r.1 r.2.1 r.2.2.1 r.2.2.2.1 r.2.2.2.2.1 r.2.2.2.2.2 off

/-- Comparable instant in seconds: naive datetimes compare by wall-clock
fields, aware datetimes by absolute (offset-adjusted) time; a plain date or a
naive/aware mix does not compare (Python raises TypeError). -/
def dtSecs : DateTimeVal → Option Int
  | .pureDate _ _ _ => none
  | .naive y m d hh mi ss => some (daysFromCivil y m d * 86400 + (hh * 3600 + mi * 60 + ss : Nat))
  | .aware y m d hh mi ss off =>
    some (daysFromCivil y m d * 86400 + (hh * 3600 + mi * 60 + ss : Nat) - off * 60)

def isAwareDT : DateTimeVal → Bool
  | .aware _ _ _ _ _ _ _ => true
  | _ => false

def isDatetimeDT : DateTimeVal → Bool
  | .pureDate _ _ _ => false
  | _ => true

/-- dt_end - dt_start in seconds; none models the TypeError Python raises
when comparing or subtracting a naive and an aware datetime. -/
def deltaSeconds (a b : DateTimeVal) : Option Int :=
  if isAwareDT a = isAwareDT b then
    match dtSecs a, dtSecs b with
    | some x, some y => some (x - y)
    | _, _ => none
  else none

/-! ### Data model -/

/-- A normalized local occurrence, the dict load_local_events stores per key. -/
structure LocalEvent where
  uid : String
  summary : String
  location : String
  description : String
  start : DateTimeVal
  end_ : DateTimeVal
  allDay : Bool
deriving DecidableEq, Repr

/-- The start/end object of a Google event or request body: either an
all-day date dict, a dateTime dict (with an optional timeZone entry), or a
missing/empty dict.  Python compares these dicts by full equality, which
structural equality here mirrors. -/
inductive GTime where
  | absent
  | date (s : String)
  | dateTime (s : String) (tz : Option String)
deriving DecidableEq, Repr

/-- A Google Calendar event item as the scripts read it.  Each field models
the corresponding dict lookup with the default the code uses: summary,
location default to the empty string, transparency defaults to opaque,
optional fields to none; extSource and extIcalUID are
extendedProperties.private.source and .icalUID. -/
structure GEvent where
  id : Option String := none
  iCalUID : Option String := none
  extIcalUID : Option String := none
  extSource : Option String := none
  summary : String := ""
  location : String := ""
  transparency : String := "opaque"
  startObj : GTime := .absent
  endObj : GTime := .absent
  created : Option String := none
deriving DecidableEq, Repr

def ORPHAN_MARKER : String := "calendarbridge"

/-- safe_sync.is_our_event / cleanup_duplicates.is_our_event. -/
def is_our_event (e : GEvent) : Bool := e.extSource = some ORPHAN_MARKER

/-- start.get("date") or start.get("dateTime", ""). -/
def gStartString : GTime → String
  | .absent => ""
  | .date s => s
  | .dateTime s _ => s

/-- The content-hash record.  The code computes the MD5 digest of the
sorted-key JSON dump of exactly these fields; the digest is only ever
compared for equality, so it is modelled as the serialized record itself. -/
structure EventHash where
  summary : String
  location : String
  description500 : String
  startStr : String
  endStr : String
  allDay : Bool
deriving DecidableEq, Repr

/-- safe_sync.compute_event_hash: hash of (summary, location,
description[:500], str(start), str(end), allDay). -/
def compute_event_hash (ev : LocalEvent) : EventHash :=
  { summary := ev.summary
    location := ev.location
    description500 := strTake ev.description 500
    startStr := pyStr ev.start
    endStr := pyStr ev.end_
    allDay := ev.allDay }

/-! ### Instance normalization (safe_sync.load_local_events) -/

/-- A parsed calendar component as the expanded iterable yields it.
Recurrence expansion itself (recurring_ical_events) is the external
collaborator; the model covers the per-component loop body. -/
structure Comp where
  name : String := "VEVENT"
  uidRaw : Option String := none
  msAllDay : Option String := none
  dtstart : Option DateTimeVal := none
  dtend : Option DateTimeVal := none
  summary : Option String := none
  location : Option String := none
  description : Option String := none
deriving DecidableEq, Repr

/-- Wall-clock midnight test (dt.hour == dt.minute == dt.second == 0). -/
def midnightDT : DateTimeVal → Bool
  | .pureDate _ _ _ => true
  | .naive _ _ _ hh mi ss => hh = 0 ∧ mi = 0 ∧ ss = 0
  | .aware _ _ _ hh mi ss _ => hh = 0 ∧ mi = 0 ∧ ss = 0

/-- Methods 2 and 3 of safe_sync.is_all_day_event: pure-date start, or a
midnight-to-midnight whole-day span.  none models the TypeError path
(naive/aware mixed comparison), which the caller's try/except drops. -/
def allDayStructural (c : Comp) : Option Bool :=
  match c.dtstart with
  | none => some false
  | some ds =>
    match ds with
    | .pureDate _ _ _ => some true
    | _ =>
      match c.dtend with
      | none => some false
      | some de =>
        match de with
        | .pureDate _ _ _ => some false
        | _ =>
          if midnightDT ds ∧ midnightDT de then
            match deltaSeconds de ds with
            | none => none
            | some delta =>
              if 0 < delta ∧ 86400 ≤ delta ∧ delta % 86400 = 0 then some true
              else some false
          else some false

/-- safe_sync.is_all_day_event: the Microsoft all-day flag, else the
structural checks. -/
def is_all_day_event (c : Comp) : Option Bool :=
  match c.msAllDay with
  | some s => if strStrip (strUpper s) = "TRUE" then some true else allDayStructural c
  | none => allDayStructural c

/-- One iteration of the load_local_events loop: the key/value pair stored
for a component, or none when the component is skipped (wrong name, missing
UID or DTSTART) or dropped by the per-event exception handler. -/
def compEntry (c : Comp) : Option (String × LocalEvent) :=
  if c.name ≠ "VEVENT" then none
  else
    let uid := strStrip (c.uidRaw.getD "")
    if uid = "" then none
    else
      match c.dtstart with
      | none => none
      | some dtstart =>
        match is_all_day_event c with
        | none => none
        | some true =>
          let startDate := normalize_to_date dtstart
          let endDate0 :=
            match c.dtend with
            | some de => normalize_to_date de
            | none => addDaysDate startDate 1
          let endDate := if dateLe endDate0 startDate then addDaysDate startDate 1 else endDate0
          some (uid ++ "|" ++ dateIso3 startDate,
            { uid := uid
              summary := strStrip (c.summary.getD "")
              location := strStrip (c.location.getD "")
              description := strStrip (c.description.getD "")
              start := dateOfTriple startDate
              end_ := dateOfTriple endDate
              allDay := true })
        | some false =>
          let dtend :=
            match c.dtend with
            | some de => de
            | none =>
              if isDatetimeDT dtstart then addSecondsDT dtstart 3600
              else addSecondsDT dtstart 86400
          some (uid ++ "|" ++ to_iso dtstart,
            { uid := uid
              summary := strStrip (c.summary.getD "")
              location := strStrip (c.location.getD "")
              description := strStrip (c.description.getD "")
              start := dtstart
              end_ := dtend
              allDay := false })

def loadStep (m : AList LocalEvent) (c : Comp) : AList LocalEvent :=
  match compEntry c with
  | none => m
  | some kv => alSet m kv.1 kv.2

/-- safe_sync.load_local_events: the events dict built over the expanded
components; events[key] = value overwrites on duplicate keys. -/
def load_local_events (comps : List Comp) : AList LocalEvent :=
  comps.foldl loadStep []

/-! ### Remote indexing (safe_sync.fetch_google_events) -/

/-- The start-string normalization applied inside fetch_google_events: when
the string has a time part, keep its first 8 characters when it has at least
8, else cut it at the first plus or minus sign. -/
def normalizeFetchedStart (s : String) : String :=
  if strContains s 'T' then
    let parts := strSplit s 'T'
    let p1 := parts.getD 1 ""
    let timePart :=
      if 8 ≤ p1.data.length then strTake p1 8
      else (strSplit ((strSplit p1 '+').headD "") '-').headD ""
    parts.headD "" ++ "T" ++ timePart
  else s

def fetchIndexKeyed (m : AList GEvent) (item : GEvent) (uid : String) : AList GEvent :=
  let s := gStartString item.startObj
  if s = "" then m
  else alSet m (uid ++ "|" ++ normalizeFetchedStart s) item

/-- One item of the fetch_google_events indexing loop: key the event by
iCalUID (falling back to the private icalUID tag) and its normalized start
string; items with neither a UID nor a start string are not indexed. -/
def fetchIndexStep (m : AList GEvent) (item : GEvent) : AList GEvent :=
  match optTruthy item.iCalUID with
  | some uid => fetchIndexKeyed m item uid
  | none =>
    match optTruthy item.extIcalUID with
    | some uid => fetchIndexKeyed m item uid
    | none => m

/-- safe_sync.fetch_google_events: the events_by_key index over all fetched
items (pagination flattened into one list). -/
def fetch_google_events (items : List GEvent) : AList GEvent :=
  items.foldl fetchIndexStep []

/-! ### State store (safe_sync.SyncState) -/

structure SyncStateData where
  events : AList EventHash
  google_ids : AList String
  last_sync : Option String
deriving DecidableEq, Repr

def freshState : SyncStateData := { events := [], google_ids := [], last_sync := none }

/-- SyncState._load: a parsed state file (some (some d)), a file whose parse
raised (some none), or a missing file (none); the last two start fresh. -/
def SyncState_load : Option (Option SyncStateData) → SyncStateData
  | some (some d) => d
  | _ => freshState

def SyncStateData.get_event_hash (st : SyncStateData) (key : String) : Option EventHash :=
  alGet st.events key

def SyncStateData.get_google_id (st : SyncStateData) (key : String) : Option String :=
  alGet st.google_ids key

def SyncStateData.set_event_hash (st : SyncStateData) (key : String) (h : EventHash)
    (gid : String) : SyncStateData :=
  { st with events := alSet st.events key h, google_ids := alSet st.google_ids key gid }

def SyncStateData.remove_event (st : SyncStateData) (key : String) : SyncStateData :=
  { st with events := alErase st.events key, google_ids := alErase st.google_ids key }

def SyncStateData.get_all_keys (st : SyncStateData) : List String := alKeys st.events

/-! ### Apply layer (safe_sync.build_event_body / upsert_event / main) -/

/-- The Google request body build_event_body constructs.  location,
description and transparency model dict entries that can be None or absent
(Python's body.get on a missing key), extIcalUID/extSource the private tag. -/
structure Body where
  summary : String
  location : Option String
  description : Option String
  extIcalUID : String
  extSource : String
  start : GTime
  end_ : GTime
  transparency : Option String
deriving DecidableEq, Repr

/-- Python: s or None. -/
def orNone (s : String) : Option String := if s = "" then none else some s

/-- safe_sync.build_event_body. -/
def build_event_body (ev : LocalEvent) (tz : String) : Body :=
  let base : Body :=
    { summary := if ev.summary = "" then "(No title)" else ev.summary
      location := orNone ev.location
      description := orNone ev.description
      extIcalUID := ev.uid
      extSource := ORPHAN_MARKER
      start := .absent
      end_ := .absent
      transparency := none }
  if ev.allDay then
    { base with
      start := .date (dateIso3 (normalize_to_date ev.start))
      end_ := .date (dateIso3 (normalize_to_date ev.end_))
      transparency := some "transparent" }
  else
    { base with
      start := .dateTime (to_iso ev.start) (some tz)
      end_ := .dateTime (to_iso ev.end_) (some tz) }

/-- The final outcome of one remote call after the request_with_backoff
wrapper: success with the response id, an HttpError with its terminal
status, or another exception. -/
inductive ApiResult where
  | ok (id : String)
  | http (status : Nat)
  | exc
deriving DecidableEq, Repr

/-- Deterministic oracle for the remote API: patch is keyed by (local key,
eventId), insert by local key, delete by Google id. -/
structure ApiOracle where
  patch : String → Option String → ApiResult
  insert : String → ApiResult
  delete : String → ApiResult

/-- The field comparison of safe_sync.upsert_event (summary, location,
transparency, start, end between the new body and the existing remote
event); description is not compared.  body.get yields None for an absent
key, and Python None never equals a string. -/
def needs_update (body : Body) (g : GEvent) : Bool :=
  body.summary ≠ g.summary ∨
  body.location ≠ some g.location ∨
  body.transparency ≠ some g.transparency ∨
  body.start ≠ g.startObj ∨
  body.end_ ≠ g.endObj

/-- A remote write actually issued (the op lists let the theorems speak
about which API calls a run makes). -/
inductive RemoteOp where
  | insertOp (key : String) (body : Body)
  | patchOp (key : String) (eventId : Option String) (body : Body)
  | deleteOp (gid : String)
deriving DecidableEq, Repr

/-- The insert half of upsert_event: events().insert, with 409 treated as
skipped and any other failure as failed. -/
def insertAttempt (api : ApiOracle) (key : String) (body : Body) (pre : List RemoteOp) :
    String × Option String × List RemoteOp :=
  match api.insert key with
  | .ok rid => ("created", some rid, pre ++ [RemoteOp.insertOp key body])
  | .http s =>
    if s = 409 then ("skipped", none, pre ++ [RemoteOp.insertOp key body])
    else ("failed", none, pre ++ [RemoteOp.insertOp key body])
  | .exc => ("failed", none, pre ++ [RemoteOp.insertOp key body])

/-- safe_sync.upsert_event: returns (action, google id, issued calls).
With an existing event: compare fields, skip when nothing differs, else
patch; a 404 on patch falls through to insert (demotion to create); other
patch failures are failed.  Without an existing event: insert. -/
def upsert_event (api : ApiOracle) (key : String) (body : Body) :
    Option GEvent → String × Option String × List RemoteOp
  | some g =>
    if needs_update body g = false then ("skipped", g.id, [])
    else
      match api.patch key g.id with
      | .ok rid => ("updated", some rid, [RemoteOp.patchOp key g.id body])
      | .http s =>
        if s = 404 then insertAttempt api key body [RemoteOp.patchOp key g.id body]
        else ("failed", none, [RemoteOp.patchOp key g.id body])
      | .exc => ("failed", none, [RemoteOp.patchOp key g.id body])
  | none => insertAttempt api key body []

/-! ### Main sync loop (safe_sync.main) -/

structure Stats where
  created : Nat
  updated : Nat
  skipped : Nat
  deleted : Nat
  failed : Nat
deriving DecidableEq, Repr

def stats0 : Stats := ⟨0, 0, 0, 0, 0⟩

/-- stats[action] += 1 for the action strings upsert_event returns. -/
def bump (s : Stats) (a : String) : Stats :=
  if a = "created" then { s with created := s.created + 1 }
  else if a = "updated" then { s with updated := s.updated + 1 }
  else if a = "skipped" then { s with skipped := s.skipped + 1 }
  else if a = "failed" then { s with failed := s.failed + 1 }
  else s

structure SyncAcc where
  stats : Stats
  st : SyncStateData
  ops : List RemoteOp
deriving DecidableEq, Repr

/-- The existing-event resolution of the main loop: by key in the Google
index, else by scanning the index values for the stored Google id. -/
def findById (g : AList GEvent) (gid : String) : Option GEvent :=
  (g.map Prod.snd).find? (fun e => e.id = some gid)

def resolveExisting (g : AList GEvent) (st : SyncStateData) (key : String) : Option GEvent :=
  match alGet g key with
  | some e => some e
  | none =>
    match optTruthy (st.get_google_id key) with
    | some gid => findById g gid
    | none => none

/-- After an upsert returning r = (action, google id, issued calls): count
the action, record hash and Google id when an id came back, append the
calls. -/
def applyResult (acc : SyncAcc) (key : String) (contentHash : EventHash)
    (r : String × Option String × List RemoteOp) : SyncAcc :=
  { stats := bump acc.stats r.1
    st :=
      match optTruthy r.2.1 with
      | some gid => acc.st.set_event_hash key contentHash gid
      | none => acc.st
    ops := acc.ops ++ r.2.2 }

/-- One iteration of the main per-event loop: early skip when an existing
event is found and the stored hash matches (and no forced full sync), else
build the body, upsert, and record the outcome. -/
def processOne (api : ApiOracle) (tz : String) (forceFull : Bool) (g : AList GEvent)
    (acc : SyncAcc) (kv : String × LocalEvent) : SyncAcc :=
  if (resolveExisting g acc.st kv.1).isSome = true ∧
      acc.st.get_event_hash kv.1 = some (compute_event_hash kv.2) ∧ forceFull = false
  then
    { acc with stats := { acc.stats with skipped := acc.stats.skipped + 1 } }
  else
    applyResult acc kv.1 (compute_event_hash kv.2)
      (upsert_event api kv.1 (build_event_body kv.2 tz) (resolveExisting g acc.st kv.1))

def processFold (api : ApiOracle) (tz : String) (forceFull : Bool) (g : AList GEvent)
    (l : AList LocalEvent) (acc : SyncAcc) : SyncAcc :=
  l.foldl (processOne api tz forceFull g) acc

/-- The issued remote delete of one orphan: success and 410 count as
deleted, anything else is only logged. -/
def deleteAttempt (api : ApiOracle) (acc : SyncAcc) (gid : String) : SyncAcc :=
  match api.delete gid with
  | .ok _ =>
    { acc with stats := { acc.stats with deleted := acc.stats.deleted + 1 },
               ops := acc.ops ++ [RemoteOp.deleteOp gid] }
  | .http s =>
    if s = 410 then
      { acc with stats := { acc.stats with deleted := acc.stats.deleted + 1 },
                 ops := acc.ops ++ [RemoteOp.deleteOp gid] }
    else { acc with ops := acc.ops ++ [RemoteOp.deleteOp gid] }
  | .exc => { acc with ops := acc.ops ++ [RemoteOp.deleteOp gid] }

/-- The conditional delete of one orphan key: nothing is issued when no
Google id is stored, the id is not found in the index, or the found event
does not carry our marker. -/
def deleteCore (api : ApiOracle) (g : AList GEvent) (acc : SyncAcc) (key : String) : SyncAcc :=
  match optTruthy (acc.st.get_google_id key) with
  | none => acc
  | some gid =>
    match findById g gid with
    | some fe => if is_our_event fe then deleteAttempt api acc gid else acc
    | none => acc

/-- One orphan key of the deletion pass: the conditional delete, then the
state entry is removed in every case (the code removes it at the end of the
iteration, or directly when no Google id is stored). -/
def deleteOne (api : ApiOracle) (g : AList GEvent) (acc : SyncAcc) (key : String) : SyncAcc :=
  { deleteCore api g acc key with
    st := (deleteCore api g acc key).st.remove_event key }

/-- The DELETE_ORPHANS pass of safe_sync.main: every tracked key that is no
longer local is processed by deleteOne.  The Python set difference iterates
in unspecified order; the model iterates in state order, which no claim
depends on. -/
def deletePhase (api : ApiOracle) (g : AList GEvent) (localKeys : List String)
    (acc : SyncAcc) : SyncAcc :=
  let orphans := (acc.st.get_all_keys).filter (fun k => ¬ localKeys.contains k)
  orphans.foldl (deleteOne api g) acc

structure RunResult where
  stats : Stats
  state : SyncStateData
  ops : List RemoteOp
  exitNonzero : Bool
deriving DecidableEq, Repr

/-- safe_sync.main after loading: abort (exit 1, nothing touched) when no
local events parsed; otherwise process every local event, then the orphan
deletion pass; exit nonzero when any operation failed.  state.save() writes
the final state to disk, modelled by returning it. -/
def runSync (api : ApiOracle) (tz : String) (forceFull : Bool)
    (localEvents : AList LocalEvent) (googleEvents : AList GEvent)
    (st0 : SyncStateData) : RunResult :=
  if localEvents.isEmpty then
    { stats := stats0, state := st0, ops := [], exitNonzero := true }
  else
    let r := deletePhase api googleEvents (alKeys localEvents)
      (processFold api tz forceFull googleEvents localEvents ⟨stats0, st0, []⟩)
    { stats := r.stats, state := r.st, ops := r.ops, exitNonzero := 0 < r.stats.failed }

/-! ### Duplicate Reconciler (cleanup_duplicates.py) -/

/-- cleanup_duplicates.normalize_start_string: strip a +HH:MM / -HH:MM / Z
suffix from the time part, then truncate it to 8 characters. -/
def normalize_start_string (startObj : GTime) : String :=
  let s := gStartString startObj
  if s = "" then ""
  else if ¬ strContains s 'T' then s
  else
    let parts := strSplit s 'T'
    let rest := parts.getD 1 ""
    let restTail : String := ⟨rest.data.drop 1⟩
    let rest2 :=
      if strContains rest '+' then (strSplit rest '+').headD ""
      else if strContains restTail '-' then (strSplit rest '-').headD ""
      else if strEndsWithChar rest 'Z' then strDropLast rest
      else rest
    parts.headD "" ++ "T" ++ strTake rest2 8

/-- cleanup_duplicates.make_key_from_event. -/
def make_key_from_event (item : GEvent) : Option String :=
  let uid? :=
    match optTruthy item.iCalUID with
    | some u => some u
    | none => optTruthy item.extIcalUID
  match uid? with
  | none => none
  | some uid =>
    let s := normalize_start_string item.startObj
    if s = "" then none
    else some (uid ++ "|" ++ s)

/-- Append a value to a grouped association list
(groups.setdefault(key, []).append(ev)). -/
def alAppend (m : AList (List GEvent)) (key : String) (e : GEvent) : AList (List GEvent) :=
  match alGet m key with
  | some l => alSet m key (l ++ [e])
  | none => m ++ [(key, [e])]

def groupStep (gs : AList (List GEvent)) (ev : GEvent) : AList (List GEvent) :=
  match make_key_from_event ev with
  | none => gs
  | some k => alAppend gs k ev

/-- The grouping loop of cleanup_duplicates.analyze_duplicates. -/
def buildGroups (events : List GEvent) : AList (List GEvent) :=
  events.foldl groupStep []

structure DupInfo where
  count_total : Nat
  keep_id : String
  delete_ids : List String
  ours_ids : List String
  not_ours_ids : List String
  sample_summary : String
  start : GTime
deriving DecidableEq, Repr

/-- The group members carrying our marker and an id ([e.get("id") for e in
evs if is_our_event(e) and e.get("id")]). -/
def oursIdsOf (evs : List GEvent) : List String :=
  evs.filterMap (fun e => if is_our_event e then e.id else none)

/-- The canonical survivor of a duplicate group: the id recorded in sync
state when it is in the group, else the first event carrying our marker,
else the first id (i0). -/
def chooseKeep (state : SyncStateData) (key : String) (evs : List GEvent)
    (i0 : String) : String :=
  match optTruthy (alGet state.google_ids key) with
  | some cid =>
    if (evs.filterMap GEvent.id).contains cid then cid else (oursIdsOf evs).headD i0
  | none => (oursIdsOf evs).headD i0

/-- The per-group body of analyze_duplicates: for a group with at least two
events and at least one id, all ids other than the chosen survivor are
marked for deletion. -/
def dupInfoOfGroup (state : SyncStateData) (key : String) (evs : List GEvent) :
    Option DupInfo :=
  if evs.length ≤ 1 then none
  else
    match evs.filterMap GEvent.id with
    | [] => none
    | i0 :: _ =>
      some
        { count_total := evs.length
          keep_id := chooseKeep state key evs i0
          delete_ids := (evs.filterMap GEvent.id).filter
            (fun i => i ≠ chooseKeep state key evs i0)
          ours_ids := oursIdsOf evs
          not_ours_ids := evs.filterMap (fun e => if is_our_event e then none else e.id)
          sample_summary := (evs.headD {}).summary
          start := (evs.headD {}).startObj }

def analStep (state : SyncStateData) (acc : AList DupInfo) (kv : String × List GEvent) :
    AList DupInfo :=
  match dupInfoOfGroup state kv.1 kv.2 with
  | none => acc
  | some info => acc ++ [(kv.1, info)]

/-- cleanup_duplicates.analyze_duplicates. -/
def analyze_duplicates (events : List GEvent) (state : SyncStateData) : AList DupInfo :=
  (buildGroups events).foldl (analStep state) []

/-- cleanup_duplicates.delete_duplicates: in dry-run mode (apply = false)
nothing is deleted; in apply mode every delete_ids entry of every group is
deleted, counting success and 410 as deleted and anything else as failed.
Returns (issued calls, deleted count, failed count). -/
def delete_duplicates (api : ApiOracle) (dup : AList DupInfo) (apply : Bool) :
    List RemoteOp × Nat × Nat :=
  if apply = false then ([], 0, 0)
  else
    dup.foldl
      (fun acc kv =>
        kv.2.delete_ids.foldl
          (fun acc2 gid =>
            match api.delete gid with
            | .ok _ => (acc2.1 ++ [RemoteOp.deleteOp gid], acc2.2.1 + 1, acc2.2.2)
            | .http s =>
              if s = 410 then (acc2.1 ++ [RemoteOp.deleteOp gid], acc2.2.1 + 1, acc2.2.2)
              else (acc2.1 ++ [RemoteOp.deleteOp gid], acc2.2.1, acc2.2.2 + 1)
            | .exc => (acc2.1 ++ [RemoteOp.deleteOp gid], acc2.2.1, acc2.2.2 + 1))
          acc)
      ([], 0, 0)

/-- The sample of duplicate groups the dry run prints (up to five groups,
each with its keep target and delete targets). -/
def dryRunShownGroups (dup : AList DupInfo) : AList DupInfo := dup.take 5

def isDeleteOp : RemoteOp → Bool
  | .deleteOp _ => true
  | _ => false

/-- An always-succeeding remote API whose response ids are produced by the
given functions (the all-operations-successful hypothesis of the idempotence
property). -/
def allOkApi (insF : String → String) (patchF : String → Option String → String)
    (delF : String → ApiResult) : ApiOracle :=
  { patch := fun k eid => .ok (patchF k eid)
    insert := fun k => .ok (insF k)
    delete := delF }

/-- A remote API that rejects the insert of exactly one key with a
non-retryable client error and succeeds everywhere else. -/
def oneFailApi (k0 : String) (idf : String → String) : ApiOracle :=
  { patch := fun k _ => .ok (idf k)
    insert := fun k => if k = k0 then .http 400 else .ok (idf k)
    delete := fun _ => .ok "" }

/-- The per-key early-skip precondition of the main loop: an existing remote
event resolves and the stored hash matches the desired instance. -/
def skipReady (g : AList GEvent) (st : SyncStateData) (k : String) (ev : LocalEvent) : Prop :=
  st.get_event_hash k = some (compute_event_hash ev) ∧
  (resolveExisting g st k).isSome = true

/-- What one fully successful pass establishes per desired key: the stored
hash is current, and either the key matched in the previous remote index or
a nonempty Google id is recorded for the key. -/
def postCond (g : AList GEvent) (st : SyncStateData) (k : String) (ev : LocalEvent) : Prop :=
  st.get_event_hash k = some (compute_event_hash ev) ∧
  ((alGet g k).isSome = true ∨ (optTruthy (st.get_google_id k)).isSome = true)

/-! ### Concrete scenario inputs used by individual claims -/

/-- C1 scenario: a timed occurrence of series S1 starting
2024-03-05T09:00:00-05:00, and the remote echo of the same occurrence
persisted in UTC. -/
def c1SourceComp : Comp :=
  { uidRaw := some "S1"
    dtstart := some (.aware 2024 3 5 9 0 0 (-300))
    dtend := some (.aware 2024 3 5 10 0 0 (-300))
    summary := some "Weekly" }

def c1RemoteEcho : GEvent :=
  { id := some "G1", iCalUID := some "S1"
    startObj := .dateTime "2024-03-05T14:00:00Z" none
    extSource := some "calendarbridge" }

/-- C4 scenario: two expanded components with the same UID and start. -/
def c4CompFirst : Comp :=
  { uidRaw := some "U"
    dtstart := some (.naive 2024 7 4 9 0 0)
    dtend := some (.naive 2024 7 4 10 0 0)
    summary := some "first" }

def c4CompSecond : Comp := { c4CompFirst with summary := some "second" }

def c4DupKey : String := "U|2024-07-04T09:00:00+00:00"

/-- C5 scenario: the stored hash differs (description changed) but every
live field the code compares matches the remote event. -/
def c5Key : String := "U5|2024-07-04"

def c5Desired : LocalEvent :=
  { uid := "U5", summary := "Meet", location := "Room", description := "new"
    start := .pureDate 2024 7 4, end_ := .pureDate 2024 7 5, allDay := true }

def c5Remote : GEvent :=
  { id := some "GID5", iCalUID := some "U5", summary := "Meet", location := "Room"
    transparency := "transparent", startObj := .date "2024-07-04"
    endObj := .date "2024-07-05", extSource := some "calendarbridge" }

def c5State : SyncStateData :=
  { events := [(c5Key, compute_event_hash { c5Desired with description := "old" })]
    google_ids := [(c5Key, "GID5")]
    last_sync := none }

def c5Api : ApiOracle := allOkApi (fun _ => "I") (fun _ _ => "P") (fun _ => .ok "")

/-- C6 scenario: an orphaned tracked key whose remote delete fails with a
transient server error. -/
def c6Hash : EventHash :=
  { summary := "s", location := "l", description500 := "d"
    startStr := "2024-07-04", endStr := "2024-07-05", allDay := true }

def c6Gev : GEvent := { id := some "G6", extSource := some "calendarbridge" }

def c6State : SyncStateData :=
  { events := [("K6", c6Hash)], google_ids := [("K6", "G6")], last_sync := none }

def c6Api : ApiOracle := { patch := fun _ _ => .ok "P", insert := fun _ => .ok "I"
                           delete := fun _ => .http 500 }

/-- C8 scenario: an orphaned tracked key whose remote delete answers 404. -/
def c8Gev : GEvent := { id := some "G8", extSource := some "calendarbridge" }

def c8State : SyncStateData :=
  { events := [("K8", c6Hash)], google_ids := [("K8", "G8")], last_sync := none }

def c8Api404 : ApiOracle := { patch := fun _ _ => .ok "P", insert := fun _ => .ok "I"
                              delete := fun _ => .http 404 }

/-- C8 witness scenario pieces. -/
def c8wBody : Body :=
  { summary := "S", location := none, description := none, extIcalUID := "U"
    extSource := "calendarbridge", start := .date "2024-07-04"
    end_ := .date "2024-07-05", transparency := some "transparent" }

def c8wRemote : GEvent := { id := some "OLD", summary := "T" }

def c8wApi : ApiOracle :=
  { patch := fun _ _ => .http 404, insert := fun _ => .ok "NEW"
    delete := fun _ => .http 410 }

def c8wAcc : SyncAcc := ⟨stats0, c8State, []⟩

/-- C9 and C2 scenario events: duplicates sharing one IdentityKey. -/
def c9Key : String := "S9|2024-03-05T09:00:00"

def c9NewerOurs : GEvent :=
  { id := some "A", iCalUID := some "S9"
    startObj := .dateTime "2024-03-05T09:00:00-05:00" none
    extSource := some "calendarbridge", created := some "2025-01-01T00:00:00Z" }

def c9OlderOurs : GEvent :=
  { c9NewerOurs with id := some "B", created := some "2020-01-01T00:00:00Z" }

def c9Third : GEvent := { c9NewerOurs with id := some "C" }

def c9StateRefB : SyncStateData :=
  { events := [], google_ids := [(c9Key, "B")], last_sync := none }

def c2Unmanaged : GEvent :=
  { id := some "B", iCalUID := some "S9"
    startObj := .dateTime "2024-03-05T09:00:00-05:00" none }

def c2ApplyApi : ApiOracle := { patch := fun _ _ => .ok "P", insert := fun _ => .ok "I"
                                delete := fun _ => .ok "" }

/-- C2 witness scenario: a run with one desired event and one orphaned
managed remote entity, so that the orphan pass issues exactly one delete. -/
def c2wLocal : AList LocalEvent :=
  [("KW", { uid := "KW", summary := "x", location := "", description := ""
            start := .pureDate 2024 7 4, end_ := .pureDate 2024 7 5, allDay := true })]

def c2wGoogle : AList GEvent := [("GONEKEY", { id := some "GG", extSource := some "calendarbridge" })]

def c2wState : SyncStateData :=
  { events := [("GONEKEY", c6Hash)], google_ids := [("GONEKEY", "GG")], last_sync := none }

/-- The second of two expanded occurrences sharing one key, as stored by load. -/
def c4SecondVal : LocalEvent :=
  { uid := "U", summary := "second", location := "", description := ""
    start := .naive 2024 7 4 9 0 0, end_ := .naive 2024 7 4 10 0 0, allDay := false }

/-- One of ten desired all-day creates, keyed by uid. -/
def c7Ev (u : String) : LocalEvent :=
  { uid := u, summary := "e", location := "", description := ""
    start := .pureDate 2024 7 4, end_ := .pureDate 2024 7 5, allDay := true }

def c7Local : AList LocalEvent :=
  [("k1", c7Ev "k1"), ("k2", c7Ev "k2"), ("k3", c7Ev "k3"), ("k4", c7Ev "k4"),
   ("k5", c7Ev "k5"), ("k6", c7Ev "k6"), ("k7", c7Ev "k7"), ("k8", c7Ev "k8"),
   ("k9", c7Ev "k9"), ("k10", c7Ev "k10")]

/-- A one-event source and the second-run fetch echoing the created entity. -/
def c3wLocal : AList LocalEvent :=
  [("KW", { uid := "KW", summary := "x", location := "", description := ""
            start := .pureDate 2024 7 4, end_ := .pureDate 2024 7 5, allDay := true })]

def c3wG2 : AList GEvent := [("KW2", { id := some "NEW" })]

theorem alGet_alSet_self {α : Type} (m : AList α) (k : String) (v : α) :
    alGet (alSet m k v) k = some v := by
  induction m with
  | nil => simp [alSet, alGet]
  | cons kv rest ih =>
    obtain ⟨k1, v1⟩ := kv
    by_cases h : k1 = k
    · simp [alSet, h, alGet]
    · simp [alSet, h, alGet, ih]

theorem alKeys_cons {α : Type} (k1 : String) (v1 : α) (rest : AList α) :
    alKeys ((k1, v1) :: rest) = k1 :: alKeys rest := rfl

theorem alGet_alSet_ne {α : Type} (m : AList α) (k k2 : String) (v : α) (h : k2 ≠ k) :
    alGet (alSet m k v) k2 = alGet m k2 := by
  have h' : ¬ (k = k2) := fun hh => h hh.symm
  induction m with
  | nil => simp [alSet, alGet, h']
  | cons kv rest ih =>
    obtain ⟨k1, v1⟩ := kv
    by_cases h1 : k1 = k
    · subst h1
      simp [alSet, alGet, h']
    · simp [alSet, h1, alGet, ih]

theorem alGet_alErase_self {α : Type} (m : AList α) (k : String) :
    alGet (alErase m k) k = none := by
  induction m with
  | nil => simp [alErase, alGet]
  | cons kv rest ih =>
    obtain ⟨k1, v1⟩ := kv
    by_cases h : k1 = k
    · simpa [alErase, h] using ih
    · simpa [alErase, alGet, h] using ih

theorem alGet_alErase_ne {α : Type} (m : AList α) (k k2 : String) (h : k2 ≠ k) :
    alGet (alErase m k) k2 = alGet m k2 := by
  have h' : ¬ (k = k2) := fun hh => h hh.symm
  induction m with
  | nil => simp [alErase, alGet]
  | cons kv rest ih =>
    obtain ⟨k1, v1⟩ := kv
    by_cases h1 : k1 = k
    · subst h1
      simp [alErase, alGet, h', ih]
    · simp [alErase, h1, alGet, ih]

theorem alGet_mem {α : Type} (m : AList α) (k : String) (v : α) (h : alGet m k = some v) :
    (k, v) ∈ m := by
  induction m with
  | nil => simp [alGet] at h
  | cons kv rest ih =>
    obtain ⟨k1, v1⟩ := kv
    by_cases h1 : k1 = k
    · subst h1
      simp [alGet] at h
      simp [h]
    · simp [alGet, h1] at h
      exact List.mem_cons_of_mem _ (ih h)

theorem alGet_isSome_mem_keys {α : Type} (m : AList α) (k : String)
    (h : (alGet m k).isSome = true) : k ∈ alKeys m := by
  induction m with
  | nil => simp [alGet] at h
  | cons kv rest ih =>
    obtain ⟨k1, v1⟩ := kv
    rw [alKeys_cons]
    by_cases h1 : k1 = k
    · exact List.mem_cons.mpr (Or.inl h1.symm)
    · simp [alGet, h1] at h
      exact List.mem_cons.mpr (Or.inr (ih h))

theorem alGet_none_of_not_mem_keys {α : Type} (m : AList α) (k : String)
    (h : k ∉ alKeys m) : alGet m k = none := by
  induction m with
  | nil => simp [alGet]
  | cons kv rest ih =>
    obtain ⟨k1, v1⟩ := kv
    rw [alKeys_cons] at h
    have h1 : ¬ (k1 = k) := fun hh => h (List.mem_cons.mpr (Or.inl hh.symm))
    have h2 : k ∉ alKeys rest := fun hh => h (List.mem_cons.mpr (Or.inr hh))
    simp [alGet, h1, ih h2]

theorem alKeys_alSet_mem {α : Type} (m : AList α) (k k2 : String) (v : α)
    (h : k2 ∈ alKeys (alSet m k v)) : k2 = k ∨ k2 ∈ alKeys m := by
  induction m with
  | nil =>
    simp [alSet, alKeys] at h
    exact Or.inl h
  | cons kv rest ih =>
    obtain ⟨k1, v1⟩ := kv
    by_cases h1 : k1 = k
    · rw [show alSet ((k1, v1) :: rest) k v = (k1, v) :: rest by simp [alSet, h1]] at h
      rw [alKeys_cons] at h
      rcases List.mem_cons.mp h with h2 | h2
      · exact Or.inl (h2.trans h1)
      · exact Or.inr (by rw [alKeys_cons]; exact List.mem_cons.mpr (Or.inr h2))
    · rw [show alSet ((k1, v1) :: rest) k v = (k1, v1) :: alSet rest k v by
        simp [alSet, h1]] at h
      rw [alKeys_cons] at h
      rcases List.mem_cons.mp h with h2 | h2
      · exact Or.inr (by rw [alKeys_cons]; exact List.mem_cons.mpr (Or.inl h2))
      · rcases ih h2 with h3 | h3
        · exact Or.inl h3
        · exact Or.inr (by rw [alKeys_cons]; exact List.mem_cons.mpr (Or.inr h3))

theorem alKeys_alSet_nodup {α : Type} (m : AList α) (k : String) (v : α)
    (h : (alKeys m).Nodup) : (alKeys (alSet m k v)).Nodup := by
  induction m with
  | nil => simp [alSet, alKeys]
  | cons kv rest ih =>
    obtain ⟨k1, v1⟩ := kv
    rw [alKeys_cons] at h
    rcases List.nodup_cons.mp h with ⟨hnotin, hrest⟩
    by_cases h1 : k1 = k
    · rw [show alSet ((k1, v1) :: rest) k v = (k1, v) :: rest by simp [alSet, h1]]
      rw [alKeys_cons]
      exact List.nodup_cons.mpr ⟨hnotin, hrest⟩
    · rw [show alSet ((k1, v1) :: rest) k v = (k1, v1) :: alSet rest k v by simp [alSet, h1]]
      rw [alKeys_cons]
      refine List.nodup_cons.mpr ⟨fun hmem => ?_, ih hrest⟩
      rcases alKeys_alSet_mem rest k k1 v hmem with h2 | h2
      · exact h1 h2
      · exact hnotin h2

theorem alGet_isSome_of_mem_keys {α : Type} (m : AList α) (k : String)
    (h : k ∈ alKeys m) : (alGet m k).isSome = true := by
  induction m with
  | nil => simp [alKeys] at h
  | cons kv rest ih =>
    obtain ⟨k1, v1⟩ := kv
    rw [alKeys_cons] at h
    by_cases h1 : k1 = k
    · simp [alGet, h1]
    · rcases List.mem_cons.mp h with h2 | h2
      · exact absurd h2.symm h1
      · simp [alGet, h1]
        exact ih h2

/-! ### Load-fold lemmas (Instance Normalizer) -/

theorem loadFold_nodup (comps : List Comp) (acc : AList LocalEvent)
    (h : (alKeys acc).Nodup) : (alKeys (comps.foldl loadStep acc)).Nodup := by
  induction comps generalizing acc with
  | nil => simpa using h
  | cons c rest ih =>
    rw [List.foldl_cons]
    refine ih _ ?_
    unfold loadStep
    cases compEntry c with
    | none => exact h
    | some kv => exact alKeys_alSet_nodup _ _ _ h

/-! ### State-removal lemmas for the deletion pass -/

theorem deleteAttempt_ops (api : ApiOracle) (acc : SyncAcc) (gid : String) :
    (deleteAttempt api acc gid).ops = acc.ops ++ [RemoteOp.deleteOp gid] := by
  unfold deleteAttempt
  cases api.delete gid with
  | ok i => rfl
  | http s =>
    by_cases h : s = 410 <;> simp [h]
  | exc => rfl

theorem deleteAttempt_st (api : ApiOracle) (acc : SyncAcc) (gid : String) :
    (deleteAttempt api acc gid).st = acc.st := by
  unfold deleteAttempt
  cases api.delete gid with
  | ok i => rfl
  | http s =>
    by_cases h : s = 410 <;> simp [h]
  | exc => rfl

theorem deleteCore_st (api : ApiOracle) (g : AList GEvent) (acc : SyncAcc) (key : String) :
    (deleteCore api g acc key).st = acc.st := by
  unfold deleteCore
  split
  · rfl
  · split
    · split
      · exact deleteAttempt_st _ _ _
      · rfl
    · rfl

theorem deleteOne_st (api : ApiOracle) (g : AList GEvent) (acc : SyncAcc) (key : String) :
    (deleteOne api g acc key).st = acc.st.remove_event key := by
  unfold deleteOne
  rw [deleteCore_st]

theorem remove_event_hash_self (st : SyncStateData) (k : String) :
    (st.remove_event k).get_event_hash k = none := by
  simp [SyncStateData.remove_event, SyncStateData.get_event_hash, alGet_alErase_self]

theorem remove_event_gid_self (st : SyncStateData) (k : String) :
    (st.remove_event k).get_google_id k = none := by
  simp [SyncStateData.remove_event, SyncStateData.get_google_id, alGet_alErase_self]

theorem remove_event_hash_ne (st : SyncStateData) (k k2 : String) (h : k2 ≠ k) :
    (st.remove_event k).get_event_hash k2 = st.get_event_hash k2 := by
  simp [SyncStateData.remove_event, SyncStateData.get_event_hash, alGet_alErase_ne _ _ _ h]

theorem remove_event_gid_ne (st : SyncStateData) (k k2 : String) (h : k2 ≠ k) :
    (st.remove_event k).get_google_id k2 = st.get_google_id k2 := by
  simp [SyncStateData.remove_event, SyncStateData.get_google_id, alGet_alErase_ne _ _ _ h]

theorem deleteFold_none_preserved (api : ApiOracle) (g : AList GEvent) (l : List String)
    (acc : SyncAcc) (k : String)
    (h1 : acc.st.get_event_hash k = none) (h2 : acc.st.get_google_id k = none) :
    (l.foldl (deleteOne api g) acc).st.get_event_hash k = none ∧
    (l.foldl (deleteOne api g) acc).st.get_google_id k = none := by
  induction l generalizing acc with
  | nil => exact ⟨h1, h2⟩
  | cons o rest ih =>
    rw [List.foldl_cons]
    refine ih _ ?_ ?_
    · rw [deleteOne_st]
      by_cases hko : k = o
      · subst hko
        exact remove_event_hash_self _ _
      · rw [remove_event_hash_ne _ _ _ hko]
        exact h1
    · rw [deleteOne_st]
      by_cases hko : k = o
      · subst hko
        exact remove_event_gid_self _ _
      · rw [remove_event_gid_ne _ _ _ hko]
        exact h2

theorem deleteFold_mem_none (api : ApiOracle) (g : AList GEvent) (l : List String)
    (acc : SyncAcc) (k : String) (h : k ∈ l) :
    (l.foldl (deleteOne api g) acc).st.get_event_hash k = none ∧
    (l.foldl (deleteOne api g) acc).st.get_google_id k = none := by
  induction l generalizing acc with
  | nil => simp at h
  | cons o rest ih =>
    rw [List.foldl_cons]
    by_cases hko : k = o
    · subst hko
      by_cases hmem : k ∈ rest
      · exact ih _ hmem
      · refine deleteFold_none_preserved _ _ _ _ _ ?_ ?_
        · rw [deleteOne_st]
          exact remove_event_hash_self _ _
        · rw [deleteOne_st]
          exact remove_event_gid_self _ _
    · rcases List.mem_cons.mp h with h2 | h2
      · exact absurd h2 hko
      · exact ih _ h2

/-! ### Operation-list lemmas -/

theorem insertAttempt_no_delete (api : ApiOracle) (key : String) (body : Body)
    (pre : List RemoteOp) (gid : String)
    (h : RemoteOp.deleteOp gid ∈ (insertAttempt api key body pre).2.2) :
    RemoteOp.deleteOp gid ∈ pre := by
  unfold insertAttempt at h
  split at h
  · simpa using h
  · split at h
    · simpa using h
    · simpa using h
  · simpa using h

theorem upsert_no_delete (api : ApiOracle) (key : String) (body : Body)
    (existing : Option GEvent) (gid : String) :
    RemoteOp.deleteOp gid ∉ (upsert_event api key body existing).2.2 := by
  intro h
  cases existing with
  | none =>
    simp only [upsert_event] at h
    simpa using insertAttempt_no_delete api key body [] gid h
  | some g =>
    simp only [upsert_event] at h
    split at h
    · simp at h
    · split at h
      · simp at h
      · split at h
        · simpa using insertAttempt_no_delete api key body
            [RemoteOp.patchOp key g.id body] gid h
        · simp at h
      · simp at h

theorem processOne_ops_no_delete (api : ApiOracle) (tz : String) (ff : Bool)
    (g : AList GEvent) (acc : SyncAcc) (kv : String × LocalEvent) (gid : String)
    (h : RemoteOp.deleteOp gid ∈ (processOne api tz ff g acc kv).ops) :
    RemoteOp.deleteOp gid ∈ acc.ops := by
  unfold processOne at h
  by_cases hc : (resolveExisting g acc.st kv.1).isSome = true ∧
      acc.st.get_event_hash kv.1 = some (compute_event_hash kv.2) ∧ ff = false
  · rw [if_pos hc] at h
    exact h
  · rw [if_neg hc] at h
    unfold applyResult at h
    rcases List.mem_append.mp h with h2 | h2
    · exact h2
    · exact absurd h2 (upsert_no_delete _ _ _ _ _)

theorem processFold_ops_no_delete (api : ApiOracle) (tz : String) (ff : Bool)
    (g : AList GEvent) (l : AList LocalEvent) (acc : SyncAcc) (gid : String)
    (h : RemoteOp.deleteOp gid ∈ (processFold api tz ff g l acc).ops) :
    RemoteOp.deleteOp gid ∈ acc.ops := by
  induction l generalizing acc with
  | nil => exact h
  | cons kv rest ih =>
    unfold processFold at h
    rw [List.foldl_cons] at h
    exact processOne_ops_no_delete _ _ _ _ _ _ _ (ih _ h)

theorem deleteOne_ops (api : ApiOracle) (g : AList GEvent) (acc : SyncAcc)
    (key gid : String)
    (h : RemoteOp.deleteOp gid ∈ (deleteOne api g acc key).ops) :
    RemoteOp.deleteOp gid ∈ acc.ops ∨
      ∃ fe, findById g gid = some fe ∧ is_our_event fe = true := by
  have h2 : RemoteOp.deleteOp gid ∈ (deleteCore api g acc key).ops := h
  unfold deleteCore at h2
  split at h2
  · exact Or.inl h2
  · rename_i gid2 hgid
    split at h2
    · rename_i fe hfind
      split at h2
      · rename_i hour
        rw [deleteAttempt_ops] at h2
        rcases List.mem_append.mp h2 with h3 | h3
        · exact Or.inl h3
        · have h4 : gid = gid2 := by simpa using h3
          exact Or.inr ⟨fe, by rw [h4]; exact hfind, hour⟩
      · exact Or.inl h2
    · exact Or.inl h2

theorem deleteFold_ops (api : ApiOracle) (g : AList GEvent) (l : List String)
    (acc : SyncAcc) (gid : String)
    (h : RemoteOp.deleteOp gid ∈ (l.foldl (deleteOne api g) acc).ops) :
    RemoteOp.deleteOp gid ∈ acc.ops ∨
      ∃ fe, findById g gid = some fe ∧ is_our_event fe = true := by
  induction l generalizing acc with
  | nil => exact Or.inl h
  | cons o rest ih =>
    rw [List.foldl_cons] at h
    rcases ih _ h with h2 | h2
    · exact deleteOne_ops _ _ _ _ _ h2
    · exact Or.inr h2

/-! ### Key-growth and no-op lemmas for the processing pass -/

theorem processOne_st_keys (api : ApiOracle) (tz : String) (ff : Bool) (g : AList GEvent)
    (acc : SyncAcc) (kv : String × LocalEvent) (k : String)
    (h : k ∈ alKeys (processOne api tz ff g acc kv).st.events) :
    k ∈ alKeys acc.st.events ∨ k = kv.1 := by
  unfold processOne at h
  by_cases hc : (resolveExisting g acc.st kv.1).isSome = true ∧
      acc.st.get_event_hash kv.1 = some (compute_event_hash kv.2) ∧ ff = false
  · rw [if_pos hc] at h
    exact Or.inl h
  · rw [if_neg hc] at h
    unfold applyResult at h
    cases hg : optTruthy (upsert_event api kv.1 (build_event_body kv.2 tz)
        (resolveExisting g acc.st kv.1)).2.1 with
    | none =>
      rw [hg] at h
      exact Or.inl h
    | some gid =>
      rw [hg] at h
      rcases alKeys_alSet_mem acc.st.events kv.1 k (compute_event_hash kv.2) h with h2 | h2
      · exact Or.inr h2
      · exact Or.inl h2

theorem processFold_st_keys (api : ApiOracle) (tz : String) (ff : Bool) (g : AList GEvent)
    (l : AList LocalEvent) (acc : SyncAcc) (k : String)
    (h : k ∈ alKeys (processFold api tz ff g l acc).st.events) :
    k ∈ alKeys acc.st.events ∨ k ∈ alKeys l := by
  induction l generalizing acc with
  | nil => exact Or.inl h
  | cons kv rest ih =>
    unfold processFold at h
    rw [List.foldl_cons] at h
    rcases ih _ h with h2 | h2
    · rcases processOne_st_keys _ _ _ _ _ _ _ h2 with h3 | h3
      · exact Or.inl h3
      · exact Or.inr (by rw [alKeys_cons]; exact List.mem_cons.mpr (Or.inl h3))
    · exact Or.inr (by rw [alKeys_cons]; exact List.mem_cons.mpr (Or.inr h2))

theorem bump_deleted (s : Stats) (a : String) : (bump s a).deleted = s.deleted := by
  unfold bump
  split_ifs <;> rfl

theorem processOne_deleted (api : ApiOracle) (tz : String) (ff : Bool) (g : AList GEvent)
    (acc : SyncAcc) (kv : String × LocalEvent) :
    (processOne api tz ff g acc kv).stats.deleted = acc.stats.deleted := by
  unfold processOne
  by_cases hc : (resolveExisting g acc.st kv.1).isSome = true ∧
      acc.st.get_event_hash kv.1 = some (compute_event_hash kv.2) ∧ ff = false
  · rw [if_pos hc]
  · rw [if_neg hc]
    exact bump_deleted _ _

theorem processFold_deleted (api : ApiOracle) (tz : String) (ff : Bool) (g : AList GEvent)
    (l : AList LocalEvent) (acc : SyncAcc) :
    (processFold api tz ff g l acc).stats.deleted = acc.stats.deleted := by
  induction l generalizing acc with
  | nil => rfl
  | cons kv rest ih =>
    unfold processFold at ih ⊢
    rw [List.foldl_cons, ih, processOne_deleted]

theorem deletePhase_subset_noop (api : ApiOracle) (g : AList GEvent)
    (localKeys : List String) (acc : SyncAcc)
    (h : ∀ k ∈ alKeys acc.st.events, localKeys.contains k = true) :
    deletePhase api g localKeys acc = acc := by
  unfold deletePhase
  have hfil : (acc.st.get_all_keys).filter (fun k => ¬ localKeys.contains k) = [] := by
    rw [List.filter_eq_nil_iff]
    intro a ha
    have hc := h a ha
    simp at hc ⊢
    exact hc
  rw [hfil]
  rfl

/-! ### Claim theorems -/

/-- C1: the claim says the IdentityKey computed on the local side and on the
remote side for the same occurrence are byte-identical, the start being
truncated to whole seconds with the timezone suffix stripped on both sides.
The code violates this: load_local_events keys a timed instance by the full
to_iso string, which keeps the UTC-offset suffix, while fetch_google_events
strips the suffix (and never converts zones), so the occurrence starting
2024-03-05T09:00:00-05:00 and its UTC remote echo 2024-03-05T14:00:00Z
produce two different keys. -/
theorem c1_identity_key_divergence :
    alKeys (load_local_events [c1SourceComp]) = ["S1|2024-03-05T09:00:00-05:00"] ∧
    alKeys (fetch_google_events [c1RemoteEcho]) = ["S1|2024-03-05T14:00:00"] ∧
    ("S1|2024-03-05T09:00:00-05:00" : String) ≠ "S1|2024-03-05T14:00:00" := by
  refine ⟨by decide, by decide, by decide⟩

/-- C4 counterexample: two expanded components share one key; the claim says
the first encountered wins, but the dict assignment keeps the last: the
loaded instance carries the second component's summary, not the first's. -/
theorem c4_last_wins_counterexample :
    (compEntry c4CompFirst).map (fun kv => (kv.1, kv.2.summary)) = some (c4DupKey, "first") ∧
    (compEntry c4CompSecond).map (fun kv => (kv.1, kv.2.summary)) = some (c4DupKey, "second") ∧
    (alGet (load_local_events [c4CompFirst, c4CompSecond]) c4DupKey).map LocalEvent.summary
      = some "second" := by
  refine ⟨by decide, by decide, by decide⟩

/-- C4 amended: within one run exactly one Instance is kept per key (the
loaded dict has no duplicate keys), and on duplicate keys the last
encountered component wins; no warning is emitted (the code has no duplicate
check at all). -/
theorem c4_last_wins_unique (comps : List Comp) (c : Comp) (k : String) (v : LocalEvent)
    (hc : compEntry c = some (k, v)) :
    alGet (load_local_events (comps ++ [c])) k = some v ∧
    (alKeys (load_local_events (comps ++ [c]))).Nodup := by
  have hload : load_local_events (comps ++ [c]) = alSet (load_local_events comps) k v := by
    unfold load_local_events
    rw [List.foldl_append, List.foldl_cons, List.foldl_nil]
    unfold loadStep
    rw [hc]
  refine ⟨?_, ?_⟩
  · rw [hload]
    exact alGet_alSet_self _ _ _
  · exact loadFold_nodup _ _ (by simp [alKeys])

theorem c4_last_wins_unique_witness :
    alGet (load_local_events ([c4CompFirst] ++ [c4CompSecond])) c4DupKey = some c4SecondVal ∧
    (alKeys (load_local_events ([c4CompFirst] ++ [c4CompSecond]))).Nodup :=
  c4_last_wins_unique [c4CompFirst] c4CompSecond c4DupKey c4SecondVal (by decide)

/-- C5 counterexample: the stored content hash differs from the desired
instance's hash (the description changed), yet the code classifies the key
as skipped and issues no patch, because the live-field comparison does not
include the description.  The claim says a hash mismatch is classified
Update with a patch issued. -/
theorem c5_hash_mismatch_skipped :
    c5State.get_event_hash c5Key ≠ some (compute_event_hash c5Desired) ∧
    (processOne c5Api "America/New_York" false [(c5Key, c5Remote)]
        ⟨stats0, c5State, []⟩ (c5Key, c5Desired)).stats.updated = 0 ∧
    (processOne c5Api "America/New_York" false [(c5Key, c5Remote)]
        ⟨stats0, c5State, []⟩ (c5Key, c5Desired)).stats.skipped = 1 ∧
    (processOne c5Api "America/New_York" false [(c5Key, c5Remote)]
        ⟨stats0, c5State, []⟩ (c5Key, c5Desired)).ops = [] := by
  refine ⟨by decide, by decide, by decide, by decide⟩

/-- C5 amended: for a key in the desired set and in the remote index whose
stored hash differs or is missing, the code compares the live remote fields
summary, location, transparency, start and end (not the description): the
patch, carrying the full build_event_body of the desired instance, is issued
exactly when that comparison reports a difference, else the key is counted
skipped with no call issued. -/
theorem c5_update_classification (api : ApiOracle) (tz : String) (key : String)
    (ev : LocalEvent) (g : GEvent) (gIdx : AList GEvent) (acc : SyncAcc) (rid : String)
    (hkey : alGet gIdx key = some g)
    (hhash : ¬ acc.st.get_event_hash key = some (compute_event_hash ev))
    (hp : api.patch key g.id = .ok rid) :
    (needs_update (build_event_body ev tz) g = true →
      (processOne api tz false gIdx acc (key, ev)).ops =
        acc.ops ++ [RemoteOp.patchOp key g.id (build_event_body ev tz)] ∧
      (processOne api tz false gIdx acc (key, ev)).stats.updated = acc.stats.updated + 1) ∧
    (needs_update (build_event_body ev tz) g = false →
      (processOne api tz false gIdx acc (key, ev)).ops = acc.ops ∧
      (processOne api tz false gIdx acc (key, ev)).stats.skipped = acc.stats.skipped + 1) := by
  have hex : resolveExisting gIdx acc.st key = some g := by
    unfold resolveExisting
    rw [hkey]
  have hcond : ¬ ((resolveExisting gIdx acc.st key).isSome = true ∧
      acc.st.get_event_hash key = some (compute_event_hash ev) ∧ false = false) := by
    intro hc
    exact hhash hc.2.1
  constructor
  · intro hnu
    have hup : upsert_event api key (build_event_body ev tz) (some g) =
        ("updated", some rid, [RemoteOp.patchOp key g.id (build_event_body ev tz)]) := by
      simp [upsert_event, hnu, hp]
    simp [processOne, hcond, hex, hup, applyResult, bump, hhash]
  · intro hnu
    have hup : upsert_event api key (build_event_body ev tz) (some g) =
        ("skipped", g.id, []) := by
      simp [upsert_event, hnu]
    simp [processOne, hcond, hex, hup, applyResult, bump, hhash]

theorem c5_update_classification_witness :
    (needs_update (build_event_body c5Desired "America/New_York") c5Remote = true →
      (processOne c5Api "America/New_York" false [(c5Key, c5Remote)]
          ⟨stats0, c5State, []⟩ (c5Key, c5Desired)).ops =
        [] ++ [RemoteOp.patchOp c5Key c5Remote.id (build_event_body c5Desired "America/New_York")] ∧
      (processOne c5Api "America/New_York" false [(c5Key, c5Remote)]
          ⟨stats0, c5State, []⟩ (c5Key, c5Desired)).stats.updated = stats0.updated + 1) ∧
    (needs_update (build_event_body c5Desired "America/New_York") c5Remote = false →
      (processOne c5Api "America/New_York" false [(c5Key, c5Remote)]
          ⟨stats0, c5State, []⟩ (c5Key, c5Desired)).ops = [] ∧
      (processOne c5Api "America/New_York" false [(c5Key, c5Remote)]
          ⟨stats0, c5State, []⟩ (c5Key, c5Desired)).stats.skipped = stats0.skipped + 1) :=
  c5_update_classification c5Api "America/New_York" c5Key c5Desired c5Remote
    [(c5Key, c5Remote)] ⟨stats0, c5State, []⟩ "P" (by decide) (by decide) (by decide)

/-- C6 counterexample: the remote delete of an orphaned key fails with a 500
(neither success nor already-gone), yet the state entry is removed anyway.
The claim says the entry is left unchanged on such a failure. -/
theorem c6_state_removed_on_failed_delete :
    c6Api.delete "G6" = .http 500 ∧
    (deletePhase c6Api [("K6", c6Gev)] ["other"] ⟨stats0, c6State, []⟩).stats.deleted = 0 ∧
    (deletePhase c6Api [("K6", c6Gev)] ["other"] ⟨stats0, c6State, []⟩).st.get_event_hash "K6"
      = none ∧
    (deletePhase c6Api [("K6", c6Gev)] ["other"] ⟨stats0, c6State, []⟩).st.get_google_id "K6"
      = none := by
  refine ⟨by decide, by decide, by decide, by decide⟩

/-- C8 counterexample: a Delete that receives a not-found (404) response is
not treated as a successful deletion: nothing is counted deleted.  The claim
says not-found and gone responses are both treated as success. -/
theorem c8_delete_404_not_success :
    c8Api404.delete "G8" = .http 404 ∧
    (deletePhase c8Api404 [("K8", c8Gev)] ["other"] ⟨stats0, c8State, []⟩).stats.deleted = 0 ∧
    (deletePhase c8Api404 [("K8", c8Gev)] ["other"] ⟨stats0, c8State, []⟩).ops
      = [RemoteOp.deleteOp "G8"] := by
  refine ⟨by decide, by decide, by decide⟩

/-- C8 amended: an Update patch answered with not-found is demoted to a
Create (the insert is issued and its result reported), and a Delete answered
with gone (410) is counted as a successful deletion; a Delete answered with
not-found (404) is only logged. -/
theorem c8_update_demote_and_gone_success :
    (∀ (api : ApiOracle) (key : String) (body : Body) (g : GEvent) (rid : String),
      needs_update body g = true → api.patch key g.id = .http 404 →
      api.insert key = .ok rid →
      upsert_event api key body (some g) =
        ("created", some rid,
          [RemoteOp.patchOp key g.id body, RemoteOp.insertOp key body])) ∧
    (∀ (api : ApiOracle) (g : AList GEvent) (acc : SyncAcc) (key gid : String) (fe : GEvent),
      optTruthy (acc.st.get_google_id key) = some gid → findById g gid = some fe →
      is_our_event fe = true → api.delete gid = .http 410 →
      (deleteOne api g acc key).stats.deleted = acc.stats.deleted + 1) := by
  constructor
  · intro api key body g rid hnu hp hi
    simp [upsert_event, hnu, hp, insertAttempt, hi]
  · intro api g acc key gid fe hgid hfind hour hdel
    simp [deleteOne, deleteCore, hgid, hfind, hour, deleteAttempt, hdel]

theorem c8_update_demote_and_gone_success_witness :
    upsert_event c8wApi "KW" c8wBody (some c8wRemote) =
      ("created", some "NEW",
        [RemoteOp.patchOp "KW" c8wRemote.id c8wBody, RemoteOp.insertOp "KW" c8wBody]) ∧
    (deleteOne c8wApi [("K8", c8Gev)] c8wAcc "K8").stats.deleted = stats0.deleted + 1 := by
  constructor
  · exact c8_update_demote_and_gone_success.1 c8wApi "KW" c8wBody c8wRemote "NEW"
      (by decide) (by decide) (by decide)
  · exact c8_update_demote_and_gone_success.2 c8wApi [("K8", c8Gev)] c8wAcc "K8" "G8" c8Gev
      (by decide) (by decide) (by decide) (by decide)

/-- C9 counterexample: two managed duplicates where the one created in 2020
is older than the one created in 2025; the claim's tie-break (b) keeps the
oldest-created managed entity, but the code keeps the first one in scan
order and marks the oldest-created one for deletion. -/
theorem c9_not_oldest_created :
    is_our_event c9NewerOurs = true ∧ is_our_event c9OlderOurs = true ∧
    c9NewerOurs.created = some "2025-01-01T00:00:00Z" ∧
    c9OlderOurs.created = some "2020-01-01T00:00:00Z" ∧
    (alGet (analyze_duplicates [c9NewerOurs, c9OlderOurs] freshState) c9Key).map
      DupInfo.keep_id = some "A" ∧
    (alGet (analyze_duplicates [c9NewerOurs, c9OlderOurs] freshState) c9Key).map
      DupInfo.delete_ids = some ["B"] := by
  refine ⟨by decide, by decide, by decide, by decide, by decide, by decide⟩

/-- C6 amended: the state entry of every orphaned key (tracked key with no
matching local Instance) is removed by the deletion pass unconditionally —
whether the remote delete succeeded, failed, found no managed event, or had
no stored Google id at all. -/
theorem c6_orphan_state_always_removed (api : ApiOracle) (g : AList GEvent)
    (localKeys : List String) (acc : SyncAcc) (k : String)
    (hmem : k ∈ acc.st.get_all_keys) (horph : localKeys.contains k = false) :
    (deletePhase api g localKeys acc).st.get_event_hash k = none ∧
    (deletePhase api g localKeys acc).st.get_google_id k = none := by
  unfold deletePhase
  apply deleteFold_mem_none
  rw [List.mem_filter]
  refine ⟨hmem, ?_⟩
  simp
  simpa using horph

theorem c6_orphan_state_always_removed_witness :
    (deletePhase c6Api [("K6", c6Gev)] ["other"]
      ⟨stats0, c6State, []⟩).st.get_event_hash "K6" = none ∧
    (deletePhase c6Api [("K6", c6Gev)] ["other"]
      ⟨stats0, c6State, []⟩).st.get_google_id "K6" = none :=
  c6_orphan_state_always_removed c6Api [("K6", c6Gev)] ["other"]
    ⟨stats0, c6State, []⟩ "K6" (by decide) (by decide)

/-- C2 amended: the sync itself (safe_sync.main) never issues a remote
delete for an entity that does not carry the managedByUs marker: every
delete the run issues targets a Google id that resolves, in the fetched
index, to an event tagged with our marker.  (The Duplicate Reconciler does
not share this guarantee — see the counterexample.) -/
theorem c2_sync_never_deletes_unmanaged (api : ApiOracle) (tz : String) (ff : Bool)
    (localE : AList LocalEvent) (g : AList GEvent) (st0 : SyncStateData) (gid : String)
    (h : RemoteOp.deleteOp gid ∈ (runSync api tz ff localE g st0).ops) :
    ∃ fe, findById g gid = some fe ∧ is_our_event fe = true := by
  unfold runSync at h
  by_cases hemp : localE.isEmpty = true
  · rw [if_pos hemp] at h
    simp at h
  · rw [if_neg hemp] at h
    have h2 : RemoteOp.deleteOp gid ∈ (deletePhase api g (alKeys localE)
        (processFold api tz ff g localE ⟨stats0, st0, []⟩)).ops := h
    unfold deletePhase at h2
    rcases deleteFold_ops api g _ _ gid h2 with h3 | h3
    · have h4 := processFold_ops_no_delete api tz ff g localE ⟨stats0, st0, []⟩ gid h3
      simp at h4
    · exact h3

theorem c2_sync_never_deletes_unmanaged_witness :
    ∃ fe, findById c2wGoogle "GG" = some fe ∧ is_our_event fe = true :=
  c2_sync_never_deletes_unmanaged c2ApplyApi "America/New_York" false c2wLocal
    c2wGoogle c2wState "GG" (by decide)

/-- C2 counterexample: a remote entity without the managedByUs marker and
with no matching desired Instance collides on key with a managed duplicate;
the Duplicate Reconciler marks it for deletion and its apply mode issues the
delete, so the claim's guarantee does not extend to the reconciler. -/
theorem c2_reconciler_deletes_unmanaged :
    is_our_event c2Unmanaged = false ∧
    (alGet (analyze_duplicates [c9NewerOurs, c2Unmanaged] freshState) c9Key).map
      DupInfo.delete_ids = some ["B"] ∧
    (delete_duplicates c2ApplyApi
        (analyze_duplicates [c9NewerOurs, c2Unmanaged] freshState) true).1
      = [RemoteOp.deleteOp "B"] := by
  refine ⟨by decide, by decide, by decide⟩

/-- C10: when the persisted state file is missing (none) or unparseable
(some none), loading returns the fresh empty state; a run starting from it
treats every key as untracked (no stored hash) and issues no remote delete
at all, since no orphan can be derived from an empty state. -/
theorem c10_fresh_state_on_load_failure (inp : Option (Option SyncStateData))
    (hfail : inp = none ∨ inp = some none) (api : ApiOracle) (tz : String) (ff : Bool)
    (localE : AList LocalEvent) (g : AList GEvent) :
    SyncState_load inp = freshState ∧
    (∀ k, (SyncState_load inp).get_event_hash k = none) ∧
    (∀ gid, RemoteOp.deleteOp gid ∉
      (runSync api tz ff localE g (SyncState_load inp)).ops) ∧
    (runSync api tz ff localE g (SyncState_load inp)).stats.deleted = 0 := by
  have hload : SyncState_load inp = freshState := by
    rcases hfail with h | h <;> rw [h] <;> rfl
  rw [hload]
  have hnoop : deletePhase api g (alKeys localE)
      (processFold api tz ff g localE ⟨stats0, freshState, []⟩)
      = processFold api tz ff g localE ⟨stats0, freshState, []⟩ := by
    apply deletePhase_subset_noop
    intro k hk
    rcases processFold_st_keys api tz ff g localE ⟨stats0, freshState, []⟩ k hk with h2 | h2
    · simp [freshState, alKeys] at h2
    · simpa using h2
  refine ⟨rfl, fun k => rfl, ?_, ?_⟩
  · intro gid hmem
    unfold runSync at hmem
    by_cases hemp : localE.isEmpty = true
    · rw [if_pos hemp] at hmem
      simp at hmem
    · rw [if_neg hemp] at hmem
      have h2 : RemoteOp.deleteOp gid ∈ (deletePhase api g (alKeys localE)
          (processFold api tz ff g localE ⟨stats0, freshState, []⟩)).ops := hmem
      rw [hnoop] at h2
      have h3 := processFold_ops_no_delete api tz ff g localE ⟨stats0, freshState, []⟩ gid h2
      simp at h3
  · unfold runSync
    by_cases hemp : localE.isEmpty = true
    · rw [if_pos hemp]
      rfl
    · rw [if_neg hemp]
      show (deletePhase api g (alKeys localE)
        (processFold api tz ff g localE ⟨stats0, freshState, []⟩)).stats.deleted = 0
      rw [hnoop]
      rw [processFold_deleted]
      rfl

theorem contains_of_mem (l : List String) (a : String) (h : a ∈ l) :
    l.contains a = true := by
  simpa using h

theorem mem_of_contains (l : List String) (a : String) (h : l.contains a = true) :
    a ∈ l := by
  simp at h
  exact h

theorem filterMapGroups_keys (st : SyncStateData) (gl : AList (List GEvent)) (k : String)
    (h : k ∈ alKeys (gl.filterMap
      (fun kv => (dupInfoOfGroup st kv.1 kv.2).map (fun i => (kv.1, i))))) :
    k ∈ alKeys gl := by
  induction gl with
  | nil =>
    simp [alKeys] at h
  | cons kv rest ih =>
    rw [alKeys_cons]
    rw [List.filterMap_cons] at h
    cases hd : dupInfoOfGroup st kv.1 kv.2 with
    | none =>
      rw [hd] at h
      exact List.mem_cons.mpr (Or.inr (ih h))
    | some info =>
      rw [hd] at h
      rw [show ((some info).map (fun i => (kv.1, i))) = some (kv.1, info) from rfl] at h
      rw [show alKeys ((kv.1, info) :: rest.filterMap
        (fun kv => (dupInfoOfGroup st kv.1 kv.2).map (fun i => (kv.1, i))))
        = kv.1 :: alKeys (rest.filterMap
          (fun kv => (dupInfoOfGroup st kv.1 kv.2).map (fun i => (kv.1, i)))) from rfl] at h
      rcases List.mem_cons.mp h with h2 | h2
      · exact List.mem_cons.mpr (Or.inl h2)
      · exact List.mem_cons.mpr (Or.inr (ih h2))

theorem analFold_eq (st : SyncStateData) (gl : AList (List GEvent)) (init : AList DupInfo) :
    gl.foldl (analStep st) init =
      init ++ gl.filterMap
        (fun kv => (dupInfoOfGroup st kv.1 kv.2).map (fun i => (kv.1, i))) := by
  induction gl generalizing init with
  | nil => simp
  | cons kv rest ih =>
    rw [List.foldl_cons, ih, List.filterMap_cons]
    unfold analStep
    cases hd : dupInfoOfGroup st kv.1 kv.2 with
    | none => simp
    | some info => simp

theorem alGet_filterMapGroups (st : SyncStateData) (gl : AList (List GEvent)) (k : String)
    (evs : List GEvent) (hnd : (alKeys gl).Nodup) (hget : alGet gl k = some evs) :
    alGet (gl.filterMap
        (fun kv => (dupInfoOfGroup st kv.1 kv.2).map (fun i => (kv.1, i)))) k
      = dupInfoOfGroup st k evs := by
  induction gl with
  | nil => simp [alGet] at hget
  | cons kv rest ih =>
    obtain ⟨k1, evs1⟩ := kv
    rw [alKeys_cons] at hnd
    rcases List.nodup_cons.mp hnd with ⟨hnotin, hnd2⟩
    rw [List.filterMap_cons]
    by_cases h1 : k1 = k
    · subst h1
      have hev : evs1 = evs := by simpa [alGet] using hget
      subst hev
      cases hd : dupInfoOfGroup st k1 evs1 with
      | some info =>
        show alGet ((k1, info) :: rest.filterMap
          (fun kv => (dupInfoOfGroup st kv.1 kv.2).map (fun i => (kv.1, i)))) k1
          = some info
        simp [alGet]
      | none =>
        show alGet (rest.filterMap
          (fun kv => (dupInfoOfGroup st kv.1 kv.2).map (fun i => (kv.1, i)))) k1
          = none
        apply alGet_none_of_not_mem_keys
        intro hmem
        exact hnotin (filterMapGroups_keys st rest k1 hmem)
    · have hget2 : alGet rest k = some evs := by
        simpa [alGet, h1] using hget
      cases hd : dupInfoOfGroup st k1 evs1 with
      | some info =>
        show alGet ((k1, info) :: rest.filterMap
          (fun kv => (dupInfoOfGroup st kv.1 kv.2).map (fun i => (kv.1, i)))) k
          = dupInfoOfGroup st k evs
        simp only [alGet]
        rw [if_neg h1]
        exact ih hnd2 hget2
      | none =>
        show alGet (rest.filterMap
          (fun kv => (dupInfoOfGroup st kv.1 kv.2).map (fun i => (kv.1, i)))) k
          = dupInfoOfGroup st k evs
        exact ih hnd2 hget2

theorem alAppend_keys_nodup (m : AList (List GEvent)) (key : String) (e : GEvent)
    (h : (alKeys m).Nodup) : (alKeys (alAppend m key e)).Nodup := by
  unfold alAppend
  cases hg : alGet m key with
  | some l => exact alKeys_alSet_nodup _ _ _ h
  | none =>
    have hnot : key ∉ alKeys m := by
      intro hmem
      have h2 := alGet_isSome_of_mem_keys m key hmem
      rw [hg] at h2
      simp at h2
    rw [show alKeys (m ++ [(key, [e])]) = alKeys m ++ [key] from by simp [alKeys]]
    rw [List.nodup_append]
    refine ⟨h, List.nodup_singleton key, ?_⟩
    intro a ha hb
    simp at hb
    subst hb
    exact hnot ha

theorem groupFold_nodup (events : List GEvent) (acc : AList (List GEvent))
    (h : (alKeys acc).Nodup) :
    (alKeys (events.foldl groupStep acc)).Nodup := by
  induction events generalizing acc with
  | nil => simpa using h
  | cons e rest ih =>
    rw [List.foldl_cons]
    refine ih _ ?_
    unfold groupStep
    cases make_key_from_event e with
    | none => exact h
    | some k => exact alAppend_keys_nodup _ _ _ h

theorem buildGroups_nodup (events : List GEvent) : (alKeys (buildGroups events)).Nodup :=
  groupFold_nodup events [] (by simp [alKeys])

theorem oursIds_sub (evs : List GEvent) (x : String) (h : x ∈ oursIdsOf evs) :
    x ∈ evs.filterMap GEvent.id := by
  rcases List.mem_filterMap.mp h with ⟨e, he, hx⟩
  by_cases ho : is_our_event e = true
  · rw [if_pos ho] at hx
    exact List.mem_filterMap.mpr ⟨e, he, hx⟩
  · rw [if_neg ho] at hx
    simp at hx

theorem chooseKeep_mem (st : SyncStateData) (key : String) (evs : List GEvent)
    (i0 : String) (restIds : List String)
    (hids : evs.filterMap GEvent.id = i0 :: restIds) :
    chooseKeep st key evs i0 ∈ evs.filterMap GEvent.id := by
  have hHead : (oursIdsOf evs).headD i0 ∈ evs.filterMap GEvent.id := by
    cases ho : oursIdsOf evs with
    | nil =>
      rw [hids]
      exact List.mem_cons.mpr (Or.inl rfl)
    | cons o orest =>
      refine oursIds_sub evs o ?_
      rw [ho]
      exact List.mem_cons.mpr (Or.inl rfl)
  unfold chooseKeep
  cases hopt : optTruthy (alGet st.google_ids key) with
  | none => exact hHead
  | some cid =>
    show (if (evs.filterMap GEvent.id).contains cid = true then cid
      else (oursIdsOf evs).headD i0) ∈ evs.filterMap GEvent.id
    by_cases hc : (evs.filterMap GEvent.id).contains cid = true
    · rw [if_pos hc]
      exact mem_of_contains _ _ hc
    · rw [if_neg hc]
      exact hHead

/-- C9 amended: the Duplicate Reconciler selects exactly one survivor per
duplicate group — preferring (a) the id recorded in persisted state when it
is in the group, else (b) the first managedByUs entity in scan order (not
the oldest-created one), else (c) the first id — and marks every other id of
the group for deletion; in dry-run mode (apply = false) it performs no
deletion at all. -/
theorem c9_survivor_selection (events : List GEvent) (st : SyncStateData) (k : String)
    (evs : List GEvent) (i0 : String) (restIds : List String)
    (hgrp : alGet (buildGroups events) k = some evs)
    (hlen : 2 ≤ evs.length)
    (hids : evs.filterMap GEvent.id = i0 :: restIds) :
    ∃ info, alGet (analyze_duplicates events st) k = some info ∧
      info.keep_id ∈ evs.filterMap GEvent.id ∧
      info.delete_ids = (evs.filterMap GEvent.id).filter (fun i => i ≠ info.keep_id) ∧
      (∀ cid, optTruthy (alGet st.google_ids k) = some cid →
        (evs.filterMap GEvent.id).contains cid = true → info.keep_id = cid) ∧
      ((∀ cid, optTruthy (alGet st.google_ids k) = some cid →
          (evs.filterMap GEvent.id).contains cid = false) →
        info.keep_id = (oursIdsOf evs).headD i0) ∧
      (∀ api : ApiOracle, delete_duplicates api (analyze_duplicates events st) false
        = ([], 0, 0)) := by
  have hnle : ¬ (evs.length ≤ 1) := by omega
  have hdup : dupInfoOfGroup st k evs = some
      { count_total := evs.length
        keep_id := chooseKeep st k evs i0
        delete_ids := (evs.filterMap GEvent.id).filter
          (fun i => i ≠ chooseKeep st k evs i0)
        ours_ids := oursIdsOf evs
        not_ours_ids := evs.filterMap (fun e => if is_our_event e then none else e.id)
        sample_summary := (evs.headD {}).summary
        start := (evs.headD {}).startObj } := by
    unfold dupInfoOfGroup
    rw [if_neg hnle, hids]
  have hget : alGet (analyze_duplicates events st) k = dupInfoOfGroup st k evs := by
    unfold analyze_duplicates
    rw [analFold_eq]
    rw [List.nil_append]
    exact alGet_filterMapGroups st (buildGroups events) k evs (buildGroups_nodup events) hgrp
  refine ⟨_, by rw [hget, hdup], chooseKeep_mem st k evs i0 restIds hids, rfl, ?_, ?_, ?_⟩
  · intro cid hopt hcont
    unfold chooseKeep
    rw [hopt]
    show (if (evs.filterMap GEvent.id).contains cid = true then cid
      else (oursIdsOf evs).headD i0) = cid
    rw [if_pos hcont]
  · intro hnone
    unfold chooseKeep
    cases hopt : optTruthy (alGet st.google_ids k) with
    | none => rfl
    | some cid =>
      show (if (evs.filterMap GEvent.id).contains cid = true then cid
        else (oursIdsOf evs).headD i0) = (oursIdsOf evs).headD i0
      rw [if_neg (by rw [hnone cid hopt]; simp)]
  · intro api
    rfl

theorem c9_survivor_selection_witness :
    ∃ info, alGet (analyze_duplicates [c9NewerOurs, c9OlderOurs, c9Third] c9StateRefB)
        c9Key = some info ∧
      info.keep_id ∈ [c9NewerOurs, c9OlderOurs, c9Third].filterMap GEvent.id ∧
      info.delete_ids = ([c9NewerOurs, c9OlderOurs, c9Third].filterMap GEvent.id).filter
        (fun i => i ≠ info.keep_id) ∧
      (∀ cid, optTruthy (alGet c9StateRefB.google_ids c9Key) = some cid →
        ([c9NewerOurs, c9OlderOurs, c9Third].filterMap GEvent.id).contains cid = true →
        info.keep_id = cid) ∧
      ((∀ cid, optTruthy (alGet c9StateRefB.google_ids c9Key) = some cid →
          ([c9NewerOurs, c9OlderOurs, c9Third].filterMap GEvent.id).contains cid = false) →
        info.keep_id = (oursIdsOf [c9NewerOurs, c9OlderOurs, c9Third]).headD "A") ∧
      (∀ api : ApiOracle, delete_duplicates api
        (analyze_duplicates [c9NewerOurs, c9OlderOurs, c9Third] c9StateRefB) false
        = ([], 0, 0)) :=
  c9_survivor_selection [c9NewerOurs, c9OlderOurs, c9Third] c9StateRefB c9Key
    [c9NewerOurs, c9OlderOurs, c9Third] "A" ["B", "C"]
    (by decide) (by decide) (by decide)

/-! ### Lemmas about untouched keys and one-failure runs -/

theorem optTruthy_none : optTruthy none = none := rfl

theorem optTruthy_some (s : String) (h : s ≠ "") : optTruthy (some s) = some s := by
  simp [optTruthy, h]

theorem optTruthy_isSome_inv (o : Option String)
    (h : (optTruthy o).isSome = true) :
    ∃ s, o = some s ∧ s ≠ "" ∧ optTruthy o = some s := by
  cases o with
  | none => simp [optTruthy] at h
  | some s =>
    by_cases hs : s = ""
    · simp [optTruthy, hs] at h
    · exact ⟨s, rfl, hs, optTruthy_some s hs⟩

theorem processOne_st_other (api : ApiOracle) (tz : String) (ff : Bool)
    (g : AList GEvent) (acc : SyncAcc) (kv : String × LocalEvent) (k : String)
    (hk : k ≠ kv.1) :
    (processOne api tz ff g acc kv).st.get_event_hash k = acc.st.get_event_hash k ∧
    (processOne api tz ff g acc kv).st.get_google_id k = acc.st.get_google_id k := by
  unfold processOne
  by_cases hc : (resolveExisting g acc.st kv.1).isSome = true ∧
      acc.st.get_event_hash kv.1 = some (compute_event_hash kv.2) ∧ ff = false
  · rw [if_pos hc]
    exact ⟨rfl, rfl⟩
  · rw [if_neg hc]
    unfold applyResult
    cases hg : optTruthy (upsert_event api kv.1 (build_event_body kv.2 tz)
        (resolveExisting g acc.st kv.1)).2.1 with
    | none => exact ⟨rfl, rfl⟩
    | some gid =>
      constructor
      · show (acc.st.set_event_hash kv.1 (compute_event_hash kv.2) gid).get_event_hash k
          = acc.st.get_event_hash k
        unfold SyncStateData.set_event_hash SyncStateData.get_event_hash
        exact alGet_alSet_ne _ _ _ _ hk
      · show (acc.st.set_event_hash kv.1 (compute_event_hash kv.2) gid).get_google_id k
          = acc.st.get_google_id k
        unfold SyncStateData.set_event_hash SyncStateData.get_google_id
        exact alGet_alSet_ne _ _ _ _ hk

theorem processFold_st_other (api : ApiOracle) (tz : String) (ff : Bool)
    (g : AList GEvent) (l : AList LocalEvent) (acc : SyncAcc) (k : String)
    (hk : ∀ kv ∈ l, k ≠ kv.1) :
    (processFold api tz ff g l acc).st.get_event_hash k = acc.st.get_event_hash k ∧
    (processFold api tz ff g l acc).st.get_google_id k = acc.st.get_google_id k := by
  induction l generalizing acc with
  | nil => exact ⟨rfl, rfl⟩
  | cons kv rest ih =>
    unfold processFold at ih ⊢
    rw [List.foldl_cons]
    have h1 := ih (processOne api tz ff g acc kv) (fun kv2 h2 => hk kv2 (List.mem_cons_of_mem _ h2))
    have h2 := processOne_st_other api tz ff g acc kv k (hk kv (List.mem_cons_self _ _))
    exact ⟨h1.1.trans h2.1, h1.2.trans h2.2⟩

theorem resolveExisting_none_of_fresh (g : AList GEvent) (st : SyncStateData) (k : String)
    (hgk : alGet g k = none) (hgid : st.get_google_id k = none) :
    resolveExisting g st k = none := by
  unfold resolveExisting
  rw [hgk, hgid]
  rfl

/-- The behavior of one insert-only step under the one-failure API: the
designated key fails and writes nothing; every other key is created and its
hash and id are recorded. -/
theorem processOne_oneFail_step (tz : String) (k0 : String) (idf : String → String)
    (acc : SyncAcc) (k1 : String) (ev1 : LocalEvent)
    (hidf : idf k1 ≠ "")
    (_hh : acc.st.get_event_hash k1 = none) (hg : acc.st.get_google_id k1 = none) :
    processOne (oneFailApi k0 idf) tz false [] acc (k1, ev1) =
      if k1 = k0 then
        { acc with stats := { acc.stats with failed := acc.stats.failed + 1 },
                   ops := acc.ops ++ [RemoteOp.insertOp k1 (build_event_body ev1 tz)] }
      else
        { stats := { acc.stats with created := acc.stats.created + 1 },
          st := acc.st.set_event_hash k1 (compute_event_hash ev1) (idf k1),
          ops := acc.ops ++ [RemoteOp.insertOp k1 (build_event_body ev1 tz)] } := by
  have hex : resolveExisting [] acc.st k1 = none :=
    resolveExisting_none_of_fresh [] acc.st k1 rfl hg
  have hcond : ¬ ((resolveExisting [] acc.st (k1, ev1).1).isSome = true ∧
      acc.st.get_event_hash (k1, ev1).1 = some (compute_event_hash (k1, ev1).2) ∧
      false = false) := by
    intro hc
    rw [hex] at hc
    simp at hc
  unfold processOne
  rw [if_neg hcond]
  show applyResult acc k1 (compute_event_hash ev1)
    (upsert_event (oneFailApi k0 idf) k1 (build_event_body ev1 tz)
      (resolveExisting [] acc.st k1)) = _
  rw [hex]
  by_cases hk : k1 = k0
  · rw [if_pos hk]
    have hup : upsert_event (oneFailApi k0 idf) k1 (build_event_body ev1 tz) none =
        ("failed", none, [RemoteOp.insertOp k1 (build_event_body ev1 tz)]) := by
      simp [upsert_event, insertAttempt, oneFailApi, hk]
    rw [hup]
    simp [applyResult, bump, optTruthy]
  · rw [if_neg hk]
    have hup : upsert_event (oneFailApi k0 idf) k1 (build_event_body ev1 tz) none =
        ("created", some (idf k1), [RemoteOp.insertOp k1 (build_event_body ev1 tz)]) := by
      simp [upsert_event, insertAttempt, oneFailApi, hk]
    rw [hup]
    simp [applyResult, bump, optTruthy_some (idf k1) hidf]

theorem countP_split (l : List String) (k0 : String) :
    l.countP (fun kk => kk ≠ k0) + l.countP (fun kk => kk = k0) = l.length := by
  induction l with
  | nil => rfl
  | cons a rest ih =>
    rw [List.countP_cons, List.countP_cons, List.length_cons]
    by_cases h : a = k0
    · rw [if_neg (by simp [h]), if_pos (by simp [h])]
      omega
    · rw [if_pos (by simp [h]), if_neg (by simp [h])]
      omega

theorem countP_eq_one (l : List String) (k0 : String) (hnd : l.Nodup) (hmem : k0 ∈ l) :
    l.countP (fun kk => kk = k0) = 1 := by
  induction l with
  | nil => simp at hmem
  | cons a rest ih =>
    rcases List.nodup_cons.mp hnd with ⟨hna, hnd2⟩
    by_cases h : a = k0
    · subst h
      have hz : rest.countP (fun kk => kk = a) = 0 := by
        rw [List.countP_eq_zero]
        intro x hx
        simp
        intro hxa
        exact hna (hxa ▸ hx)
      simp [List.countP_cons, hz]
    · rcases List.mem_cons.mp hmem with h2 | h2
      · exact absurd h2.symm h
      · simp [List.countP_cons, h, ih hnd2 h2]

/-- The processing pass under the one-failure API over untracked keys: every
key but k0 is created (hash and id recorded), k0 is failed, nothing is
skipped or updated, and k0 stays untracked. -/
theorem processFold_oneFail (tz : String) (k0 : String) (idf : String → String)
    (l : AList LocalEvent) (acc : SyncAcc)
    (hidf : ∀ kk, idf kk ≠ "")
    (hnd : (alKeys l).Nodup)
    (hfresh : ∀ kv ∈ l, acc.st.get_event_hash kv.1 = none ∧
      acc.st.get_google_id kv.1 = none) :
    (processFold (oneFailApi k0 idf) tz false [] l acc).stats.created
      = acc.stats.created + (alKeys l).countP (fun kk => kk ≠ k0) ∧
    (processFold (oneFailApi k0 idf) tz false [] l acc).stats.failed
      = acc.stats.failed + (alKeys l).countP (fun kk => kk = k0) ∧
    (processFold (oneFailApi k0 idf) tz false [] l acc).stats.updated
      = acc.stats.updated ∧
    (processFold (oneFailApi k0 idf) tz false [] l acc).stats.skipped
      = acc.stats.skipped ∧
    (∀ kv ∈ l, kv.1 ≠ k0 →
      (processFold (oneFailApi k0 idf) tz false [] l acc).st.get_event_hash kv.1
        = some (compute_event_hash kv.2)) ∧
    (processFold (oneFailApi k0 idf) tz false [] l acc).st.get_event_hash k0
      = acc.st.get_event_hash k0 := by
  induction l generalizing acc with
  | nil =>
    refine ⟨by simp [alKeys, processFold], by simp [alKeys, processFold], rfl, rfl, ?_, rfl⟩
    intro kv h
    simp at h
  | cons kv rest ih =>
    obtain ⟨k1, ev1⟩ := kv
    rcases hfresh (k1, ev1) (List.mem_cons_self _ _) with ⟨hh1, hg1⟩
    rw [alKeys_cons] at hnd
    rcases List.nodup_cons.mp hnd with ⟨hk1notin, hnd2⟩
    have hstep := processOne_oneFail_step tz k0 idf acc k1 ev1 (hidf k1) hh1 hg1
    have hfresh2 : ∀ kv2 ∈ rest,
        (processOne (oneFailApi k0 idf) tz false [] acc (k1, ev1)).st.get_event_hash kv2.1
          = none ∧
        (processOne (oneFailApi k0 idf) tz false [] acc (k1, ev1)).st.get_google_id kv2.1
          = none := by
      intro kv2 h2
      have hne : kv2.1 ≠ k1 := by
        intro heq
        exact hk1notin (heq ▸ List.mem_map_of_mem Prod.fst h2)
      have hother := processOne_st_other (oneFailApi k0 idf) tz false [] acc (k1, ev1)
        kv2.1 hne
      rcases hfresh kv2 (List.mem_cons_of_mem _ h2) with ⟨ha, hb⟩
      exact ⟨hother.1.trans ha, hother.2.trans hb⟩
    have ihr := ih (processOne (oneFailApi k0 idf) tz false [] acc (k1, ev1)) hnd2 hfresh2
    have hfoldcons : processFold (oneFailApi k0 idf) tz false [] ((k1, ev1) :: rest) acc
        = processFold (oneFailApi k0 idf) tz false [] rest
          (processOne (oneFailApi k0 idf) tz false [] acc (k1, ev1)) := by
      unfold processFold
      rw [List.foldl_cons]
    rw [hfoldcons]
    rw [hstep] at ihr ⊢
    by_cases hk : k1 = k0
    · rw [if_pos hk] at ihr ⊢
      refine ⟨?_, ?_, ihr.2.2.1, ihr.2.2.2.1, ?_, ?_⟩
      · rw [ihr.1]
        rw [alKeys_cons, List.countP_cons]
        simp [hk]
      · rw [ihr.2.1]
        rw [alKeys_cons, List.countP_cons]
        simp [hk]
        omega
      · intro kv2 h2 hne
        rcases List.mem_cons.mp h2 with h3 | h3
        · exact absurd (congrArg Prod.fst h3) (by simp [hk, hne])
        · exact ihr.2.2.2.2.1 kv2 h3 hne
      · exact ihr.2.2.2.2.2
    · rw [if_neg hk] at ihr ⊢
      refine ⟨?_, ?_, ihr.2.2.1, ihr.2.2.2.1, ?_, ?_⟩
      · rw [ihr.1]
        rw [alKeys_cons, List.countP_cons]
        simp [hk]
        omega
      · rw [ihr.2.1]
        rw [alKeys_cons, List.countP_cons]
        simp [hk]
      · intro kv2 h2 hne
        rcases List.mem_cons.mp h2 with h3 | h3
        · have hkv : kv2.1 = k1 ∧ kv2.2 = ev1 := by
            constructor
            · exact congrArg Prod.fst h3
            · exact congrArg Prod.snd h3
          rcases hkv with ⟨hka, hkb⟩
          have hrest : ∀ kv3 ∈ rest, kv2.1 ≠ kv3.1 := by
            intro kv3 h4 heq
            exact hk1notin (hka ▸ heq ▸ List.mem_map_of_mem Prod.fst h4)
          have hpres := processFold_st_other (oneFailApi k0 idf) tz false [] rest
            (processOne (oneFailApi k0 idf) tz false [] acc (k1, ev1)) kv2.1 hrest
          rw [hstep] at hpres
          rw [if_neg hk] at hpres
          rw [hpres.1, hka, hkb]
          show (acc.st.set_event_hash k1 (compute_event_hash ev1) (idf k1)).get_event_hash k1
            = some (compute_event_hash ev1)
          unfold SyncStateData.set_event_hash SyncStateData.get_event_hash
          exact alGet_alSet_self _ _ _
        · exact ihr.2.2.2.2.1 kv2 h3 hne
      · rw [ihr.2.2.2.2.2]
        show (acc.st.set_event_hash k1 (compute_event_hash ev1) (idf k1)).get_event_hash k0
          = acc.st.get_event_hash k0
        unfold SyncStateData.set_event_hash SyncStateData.get_event_hash
        exact alGet_alSet_ne _ _ _ _ (fun heq => hk (heq.symm ▸ rfl))

/-- C7: with the remote returning a non-retryable error for exactly one of
the desired Creates (remote empty, state fresh, so every key is a Create),
the run continues past the failing operation: every other key is reported
Created with its hash persisted in the state store, the failing key is
reported Failed and stays untracked, nothing is updated, skipped or deleted,
and the run exits nonzero. -/
theorem c7_partial_failure_isolation (tz : String) (k0 : String) (idf : String → String)
    (localE : AList LocalEvent)
    (hidf : ∀ kk, idf kk ≠ "")
    (hnd : (alKeys localE).Nodup)
    (hk0 : k0 ∈ alKeys localE) :
    (runSync (oneFailApi k0 idf) tz false localE [] freshState).stats.created
      = localE.length - 1 ∧
    (runSync (oneFailApi k0 idf) tz false localE [] freshState).stats.failed = 1 ∧
    (runSync (oneFailApi k0 idf) tz false localE [] freshState).stats.updated = 0 ∧
    (runSync (oneFailApi k0 idf) tz false localE [] freshState).stats.skipped = 0 ∧
    (runSync (oneFailApi k0 idf) tz false localE [] freshState).stats.deleted = 0 ∧
    (∀ kv ∈ localE, kv.1 ≠ k0 →
      (runSync (oneFailApi k0 idf) tz false localE [] freshState).state.get_event_hash kv.1
        = some (compute_event_hash kv.2)) ∧
    (runSync (oneFailApi k0 idf) tz false localE [] freshState).state.get_event_hash k0
      = none ∧
    (runSync (oneFailApi k0 idf) tz false localE [] freshState).exitNonzero = true := by
  have hemp : ¬ (localE.isEmpty = true) := by
    cases localE with
    | nil => simp [alKeys] at hk0
    | cons kv rest => simp
  have hnoop : deletePhase (oneFailApi k0 idf) [] (alKeys localE)
      (processFold (oneFailApi k0 idf) tz false [] localE ⟨stats0, freshState, []⟩)
      = processFold (oneFailApi k0 idf) tz false [] localE ⟨stats0, freshState, []⟩ := by
    apply deletePhase_subset_noop
    intro k hk
    rcases processFold_st_keys (oneFailApi k0 idf) tz false [] localE
      ⟨stats0, freshState, []⟩ k hk with h2 | h2
    · simp [freshState, alKeys] at h2
    · simpa using h2
  have hrun : runSync (oneFailApi k0 idf) tz false localE [] freshState =
      { stats := (processFold (oneFailApi k0 idf) tz false [] localE
          ⟨stats0, freshState, []⟩).stats,
        state := (processFold (oneFailApi k0 idf) tz false [] localE
          ⟨stats0, freshState, []⟩).st,
        ops := (processFold (oneFailApi k0 idf) tz false [] localE
          ⟨stats0, freshState, []⟩).ops,
        exitNonzero := 0 < (processFold (oneFailApi k0 idf) tz false [] localE
          ⟨stats0, freshState, []⟩).stats.failed } := by
    unfold runSync
    rw [if_neg hemp, hnoop]
  have hfold := processFold_oneFail tz k0 idf localE ⟨stats0, freshState, []⟩ hidf hnd
    (fun kv _ => ⟨rfl, rfl⟩)
  have hone : (alKeys localE).countP (fun kk => kk = k0) = 1 :=
    countP_eq_one (alKeys localE) k0 hnd hk0
  have hsum := countP_split (alKeys localE) k0
  have hlen : (alKeys localE).length = localE.length := List.length_map _ _
  rw [hrun]
  refine ⟨?_, ?_, ?_, ?_, ?_, ?_, ?_, ?_⟩
  · show (processFold (oneFailApi k0 idf) tz false [] localE
      ⟨stats0, freshState, []⟩).stats.created = localE.length - 1
    rw [hfold.1]
    show 0 + (alKeys localE).countP (fun kk => kk ≠ k0) = localE.length - 1
    omega
  · show (processFold (oneFailApi k0 idf) tz false [] localE
      ⟨stats0, freshState, []⟩).stats.failed = 1
    rw [hfold.2.1, hone]
    rfl
  · exact hfold.2.2.1
  · exact hfold.2.2.2.1
  · exact processFold_deleted _ _ _ _ _ _
  · intro kv hmem hne
    exact hfold.2.2.2.2.1 kv hmem hne
  · exact hfold.2.2.2.2.2
  · show decide (0 < (processFold (oneFailApi k0 idf) tz false [] localE
      ⟨stats0, freshState, []⟩).stats.failed) = true
    rw [hfold.2.1, hone]
    rfl

theorem c7_partial_failure_isolation_witness :
    (runSync (oneFailApi "k4" (fun _ => "X")) "America/New_York" false c7Local []
      freshState).stats.created = c7Local.length - 1 ∧
    (runSync (oneFailApi "k4" (fun _ => "X")) "America/New_York" false c7Local []
      freshState).stats.failed = 1 ∧
    (runSync (oneFailApi "k4" (fun _ => "X")) "America/New_York" false c7Local []
      freshState).state.get_event_hash "k1" = some (compute_event_hash (c7Ev "k1")) ∧
    (runSync (oneFailApi "k4" (fun _ => "X")) "America/New_York" false c7Local []
      freshState).state.get_event_hash "k4" = none ∧
    (runSync (oneFailApi "k4" (fun _ => "X")) "America/New_York" false c7Local []
      freshState).exitNonzero = true := by
  have h := c7_partial_failure_isolation "America/New_York" "k4" (fun _ => "X") c7Local
    (fun kk => show ("X" : String) ≠ "" by decide) (by decide) (by decide)
  exact ⟨h.1, h.2.1, h.2.2.2.2.2.1 ("k1", c7Ev "k1") (by decide) (by decide),
    h.2.2.2.2.2.2.1, h.2.2.2.2.2.2.2⟩

/-! ### Idempotence lemmas -/

theorem optTruthy_ne_empty (o : Option String) (gid : String)
    (h : optTruthy o = some gid) : gid ≠ "" := by
  cases o with
  | none => simp [optTruthy] at h
  | some s =>
    by_cases hs : s = ""
    · simp [optTruthy, hs] at h
    · rw [optTruthy_some s hs] at h
      have h2 : s = gid := by injection h
      exact h2 ▸ hs

theorem findById_id (g : AList GEvent) (gid : String) (e : GEvent)
    (h : findById g gid = some e) : e.id = some gid := by
  unfold findById at h
  have h2 := List.find?_some h
  simpa using h2

theorem resolveExisting_some_inv (g : AList GEvent) (st : SyncStateData) (k : String)
    (e : GEvent) (h : resolveExisting g st k = some e) :
    alGet g k = some e ∨
      ∃ gid, optTruthy (st.get_google_id k) = some gid ∧ findById g gid = some e := by
  unfold resolveExisting at h
  cases hg : alGet g k with
  | some e2 =>
    rw [hg] at h
    have h3 : some e2 = some e := h
    exact Or.inl h3
  | none =>
    rw [hg] at h
    cases ho : optTruthy (st.get_google_id k) with
    | some gid =>
      rw [ho] at h
      have h3 : findById g gid = some e := h
      exact Or.inr ⟨gid, rfl, h3⟩
    | none =>
      rw [ho] at h
      have h3 : (none : Option GEvent) = some e := h
      simp at h3

theorem resolveExisting_isSome_inv (g : AList GEvent) (st : SyncStateData) (k : String)
    (h : (resolveExisting g st k).isSome = true) :
    (alGet g k).isSome = true ∨ (optTruthy (st.get_google_id k)).isSome = true := by
  rcases Option.isSome_iff_exists.mp h with ⟨e, he⟩
  rcases resolveExisting_some_inv g st k e he with h2 | ⟨gid, hgid, _⟩
  · exact Or.inl (by rw [h2]; rfl)
  · exact Or.inr (by rw [hgid]; rfl)

theorem resolveExisting_isSome_of (g : AList GEvent) (st : SyncStateData) (k : String)
    (h : (alGet g k).isSome = true ∨
      ∃ gid, optTruthy (st.get_google_id k) = some gid ∧ (findById g gid).isSome = true) :
    (resolveExisting g st k).isSome = true := by
  unfold resolveExisting
  cases hg : alGet g k with
  | some e => rfl
  | none =>
    rcases h with h | ⟨gid, hgid, hfind⟩
    · rw [hg] at h
      simp at h
    · show (match optTruthy (st.get_google_id k) with
        | some gid => findById g gid
        | none => none).isSome = true
      rw [hgid]
      exact hfind

theorem upsert_allOk_gid (insF : String → String) (patchF : String → Option String → String)
    (delF : String → ApiResult) (key : String) (body : Body) (existing : Option GEvent)
    (hIF : insF key ≠ "") (hPF : ∀ eid, patchF key eid ≠ "")
    (hexid : ∀ ge, existing = some ge → ∃ s, ge.id = some s ∧ s ≠ "") :
    ∃ gid, (upsert_event (allOkApi insF patchF delF) key body existing).2.1 = some gid ∧
      gid ≠ "" := by
  cases existing with
  | none =>
    refine ⟨insF key, ?_, hIF⟩
    simp [upsert_event, insertAttempt, allOkApi]
  | some ge =>
    by_cases hnu : needs_update body ge = false
    · rcases hexid ge rfl with ⟨s, hs, hsne⟩
      refine ⟨s, ?_, hsne⟩
      simp [upsert_event, hnu, hs]
    · refine ⟨patchF key ge.id, ?_, hPF ge.id⟩
      simp [upsert_event, hnu, allOkApi]

theorem processOne_allOk_post (insF : String → String)
    (patchF : String → Option String → String) (delF : String → ApiResult)
    (tz : String) (g : AList GEvent) (acc : SyncAcc) (kv : String × LocalEvent)
    (hIds : ∀ kv2 ∈ g, (optTruthy kv2.2.id).isSome = true)
    (hPF : ∀ k eid, patchF k eid ≠ "") (hIF : ∀ k, insF k ≠ "") :
    postCond g (processOne (allOkApi insF patchF delF) tz false g acc kv).st kv.1 kv.2 := by
  unfold processOne
  by_cases hc : (resolveExisting g acc.st kv.1).isSome = true ∧
      acc.st.get_event_hash kv.1 = some (compute_event_hash kv.2) ∧ false = false
  · rw [if_pos hc]
    exact ⟨hc.2.1, resolveExisting_isSome_inv g acc.st kv.1 hc.1⟩
  · rw [if_neg hc]
    have hexid : ∀ ge, resolveExisting g acc.st kv.1 = some ge →
        ∃ s, ge.id = some s ∧ s ≠ "" := by
      intro ge hge
      rcases resolveExisting_some_inv g acc.st kv.1 ge hge with h2 | ⟨gid, hgid, hfind⟩
      · rcases optTruthy_isSome_inv _ (hIds (kv.1, ge) (alGet_mem _ _ _ h2)) with
          ⟨s, hs, hsne, _⟩
        exact ⟨s, hs, hsne⟩
      · exact ⟨gid, findById_id g gid ge hfind, optTruthy_ne_empty _ gid hgid⟩
    rcases upsert_allOk_gid insF patchF delF kv.1 (build_event_body kv.2 tz)
      (resolveExisting g acc.st kv.1) (hIF kv.1) (fun eid => hPF kv.1 eid) hexid with
      ⟨gid, hgid, hgne⟩
    unfold applyResult
    rw [hgid, optTruthy_some gid hgne]
    constructor
    · show (acc.st.set_event_hash kv.1 (compute_event_hash kv.2) gid).get_event_hash kv.1
        = some (compute_event_hash kv.2)
      unfold SyncStateData.set_event_hash SyncStateData.get_event_hash
      exact alGet_alSet_self _ _ _
    · refine Or.inr ?_
      show (optTruthy ((acc.st.set_event_hash kv.1 (compute_event_hash kv.2)
        gid).get_google_id kv.1)).isSome = true
      unfold SyncStateData.set_event_hash SyncStateData.get_google_id
      rw [alGet_alSet_self, optTruthy_some gid hgne]
      rfl

theorem postCond_preserved (g : AList GEvent) (st1 st2 : SyncStateData) (k : String)
    (ev : LocalEvent)
    (hh : st2.get_event_hash k = st1.get_event_hash k)
    (hg : st2.get_google_id k = st1.get_google_id k)
    (hp : postCond g st1 k ev) : postCond g st2 k ev := by
  unfold postCond at hp ⊢
  rw [hh, hg]
  exact hp

theorem deleteFold_st_other (api : ApiOracle) (g : AList GEvent) (l : List String)
    (acc : SyncAcc) (k : String) (hk : ∀ o ∈ l, o ≠ k) :
    (l.foldl (deleteOne api g) acc).st.get_event_hash k = acc.st.get_event_hash k ∧
    (l.foldl (deleteOne api g) acc).st.get_google_id k = acc.st.get_google_id k := by
  induction l generalizing acc with
  | nil => exact ⟨rfl, rfl⟩
  | cons o rest ih =>
    rw [List.foldl_cons]
    have h1 := ih (deleteOne api g acc o) (fun o2 h2 => hk o2 (List.mem_cons_of_mem _ h2))
    have hne : k ≠ o := fun he => hk o (List.mem_cons_self _ _) he.symm
    constructor
    · rw [h1.1, deleteOne_st, remove_event_hash_ne _ _ _ hne]
    · rw [h1.2, deleteOne_st, remove_event_gid_ne _ _ _ hne]

theorem deletePhase_st_local (api : ApiOracle) (g : AList GEvent)
    (localKeys : List String) (acc : SyncAcc) (k : String)
    (hk : localKeys.contains k = true) :
    (deletePhase api g localKeys acc).st.get_event_hash k = acc.st.get_event_hash k ∧
    (deletePhase api g localKeys acc).st.get_google_id k = acc.st.get_google_id k := by
  unfold deletePhase
  apply deleteFold_st_other
  intro o ho heq
  subst heq
  rw [List.mem_filter] at ho
  have h2 := ho.2
  simp at h2
  exact h2 (mem_of_contains _ _ hk)

theorem deleteFold_events_none (api : ApiOracle) (g : AList GEvent) (l : List String)
    (acc : SyncAcc) (k : String) (h : alGet acc.st.events k = none) :
    alGet (l.foldl (deleteOne api g) acc).st.events k = none := by
  induction l generalizing acc with
  | nil => exact h
  | cons o rest ih =>
    rw [List.foldl_cons]
    refine ih _ ?_
    rw [deleteOne_st]
    show alGet (alErase acc.st.events o) k = none
    by_cases hko : k = o
    · subst hko
      exact alGet_alErase_self _ _
    · rw [alGet_alErase_ne _ _ _ hko]
      exact h

theorem deletePhase_keys_local (api : ApiOracle) (g : AList GEvent)
    (localKeys : List String) (acc : SyncAcc) (k : String)
    (h : k ∈ alKeys (deletePhase api g localKeys acc).st.events) :
    localKeys.contains k = true := by
  by_cases hc : localKeys.contains k = true
  · exact hc
  · exfalso
    have hSome := alGet_isSome_of_mem_keys _ _ h
    by_cases hmem : k ∈ alKeys acc.st.events
    · have horph : k ∈ (acc.st.get_all_keys).filter (fun kk => ¬ localKeys.contains kk) := by
        rw [List.mem_filter]
        refine ⟨hmem, ?_⟩
        simp
        intro hmem2
        exact hc (contains_of_mem _ _ hmem2)
      have hnone2 : alGet (deletePhase api g localKeys acc).st.events k = none :=
        (deleteFold_mem_none api g _ acc k horph).1
      rw [hnone2] at hSome
      simp at hSome
    · have hnone0 : alGet acc.st.events k = none := alGet_none_of_not_mem_keys _ _ hmem
      have hnone2 : alGet (deletePhase api g localKeys acc).st.events k = none :=
        deleteFold_events_none api g _ acc k hnone0
      rw [hnone2] at hSome
      simp at hSome

theorem processFold_all_skip (api : ApiOracle) (tz : String) (g : AList GEvent)
    (l : AList LocalEvent) (s0 : Stats) (st : SyncStateData) (ops0 : List RemoteOp)
    (h : ∀ kv ∈ l, skipReady g st kv.1 kv.2) :
    processFold api tz false g l ⟨s0, st, ops0⟩ =
      ⟨{ s0 with skipped := s0.skipped + l.length }, st, ops0⟩ := by
  induction l generalizing s0 with
  | nil => rfl
  | cons kv rest ih =>
    have hskip := h kv (List.mem_cons_self _ _)
    have hcond : (resolveExisting g st kv.1).isSome = true ∧
        st.get_event_hash kv.1 = some (compute_event_hash kv.2) ∧ false = false :=
      ⟨hskip.2, hskip.1, rfl⟩
    have hstep : processOne api tz false g ⟨s0, st, ops0⟩ kv =
        ⟨{ s0 with skipped := s0.skipped + 1 }, st, ops0⟩ := by
      unfold processOne
      rw [if_pos hcond]
    have hfoldcons : processFold api tz false g (kv :: rest) ⟨s0, st, ops0⟩ =
        processFold api tz false g rest (processOne api tz false g ⟨s0, st, ops0⟩ kv) := by
      unfold processFold
      rw [List.foldl_cons]
    rw [hfoldcons, hstep, ih { s0 with skipped := s0.skipped + 1 }
      (fun kv2 h2 => h kv2 (List.mem_cons_of_mem _ h2))]
    have harith : s0.skipped + 1 + rest.length = s0.skipped + (rest.length + 1) := by omega
    show (⟨{ s0 with skipped := s0.skipped + 1 + rest.length }, st, ops0⟩ : SyncAcc) = _
    rw [harith]
    rfl

/-- C3: after a run in which every remote operation succeeded (the always-ok
oracle with nonempty response ids), an immediately following run over the
unchanged source classifies every desired key as Skip and issues zero
Create, Update and Delete operations: no remote call at all is made.  The
second fetch must reflect what the first run left behind: keys indexed in
the old fetch are still indexed (hSame), every Google id recorded in the
final state resolves in the new fetch (hEcho), and fetched entities carry
nonempty ids (hIds). -/
theorem c3_second_run_idempotent
    (insF : String → String) (patchF : String → Option String → String)
    (delF : String → ApiResult) (api2 : ApiOracle) (tz : String)
    (localE : AList LocalEvent) (g1 g2 : AList GEvent) (st0 : SyncStateData)
    (hPF : ∀ k eid, patchF k eid ≠ "") (hIF : ∀ k, insF k ≠ "")
    (hnd : (alKeys localE).Nodup)
    (hIds : ∀ kv2 ∈ g1, (optTruthy kv2.2.id).isSome = true)
    (hSame : ∀ kv2 ∈ g1, (alGet g2 kv2.1).isSome = true)
    (hEcho : ∀ kv2 ∈ (runSync (allOkApi insF patchF delF) tz false localE g1
        st0).state.google_ids, (findById g2 kv2.2).isSome = true) :
    (runSync api2 tz false localE g2 (runSync (allOkApi insF patchF delF) tz false
      localE g1 st0).state).stats.created = 0 ∧
    (runSync api2 tz false localE g2 (runSync (allOkApi insF patchF delF) tz false
      localE g1 st0).state).stats.updated = 0 ∧
    (runSync api2 tz false localE g2 (runSync (allOkApi insF patchF delF) tz false
      localE g1 st0).state).stats.deleted = 0 ∧
    (runSync api2 tz false localE g2 (runSync (allOkApi insF patchF delF) tz false
      localE g1 st0).state).stats.failed = 0 ∧
    (runSync api2 tz false localE g2 (runSync (allOkApi insF patchF delF) tz false
      localE g1 st0).state).stats.skipped = localE.length ∧
    (runSync api2 tz false localE g2 (runSync (allOkApi insF patchF delF) tz false
      localE g1 st0).state).ops = [] := by
  by_cases hemp : localE.isEmpty = true
  · cases localE with
    | cons kv rest => simp at hemp
    | nil => exact ⟨rfl, rfl, rfl, rfl, rfl, rfl⟩
  · have hst2eq : (runSync (allOkApi insF patchF delF) tz false localE g1 st0).state =
        (deletePhase (allOkApi insF patchF delF) g1 (alKeys localE)
          (processFold (allOkApi insF patchF delF) tz false g1 localE
            ⟨stats0, st0, []⟩)).st := by
      unfold runSync
      rw [if_neg hemp]
    generalize hgen : (runSync (allOkApi insF patchF delF) tz false localE g1 st0).state
      = st2
    rw [hgen] at hEcho
    have hst2 : st2 = (deletePhase (allOkApi insF patchF delF) g1 (alKeys localE)
        (processFold (allOkApi insF patchF delF) tz false g1 localE
          ⟨stats0, st0, []⟩)).st := hgen ▸ hst2eq
    have hpost : ∀ kv ∈ localE, postCond g1 st2 kv.1 kv.2 := by
      intro kv hmem
      rcases List.append_of_mem hmem with ⟨l1, l2, hsplit⟩
      have hkeys : alKeys localE = alKeys l1 ++ kv.1 :: alKeys l2 := by
        rw [hsplit]
        unfold alKeys
        rw [List.map_append, List.map_cons]
      have hndr : (kv.1 :: alKeys l2).Nodup := by
        rw [hkeys] at hnd
        exact hnd.of_append_right
      have hknotin : kv.1 ∉ alKeys l2 := (List.nodup_cons.mp hndr).1
      have hfold : processFold (allOkApi insF patchF delF) tz false g1 localE
          ⟨stats0, st0, []⟩ =
          processFold (allOkApi insF patchF delF) tz false g1 l2
            (processOne (allOkApi insF patchF delF) tz false g1
              (processFold (allOkApi insF patchF delF) tz false g1 l1
                ⟨stats0, st0, []⟩) kv) := by
        rw [hsplit]
        unfold processFold
        rw [List.foldl_append, List.foldl_cons]
      have hp1 := processOne_allOk_post insF patchF delF tz g1
        (processFold (allOkApi insF patchF delF) tz false g1 l1 ⟨stats0, st0, []⟩) kv
        hIds hPF hIF
      have hother := processFold_st_other (allOkApi insF patchF delF) tz false g1 l2
        (processOne (allOkApi insF patchF delF) tz false g1
          (processFold (allOkApi insF patchF delF) tz false g1 l1 ⟨stats0, st0, []⟩) kv)
        kv.1 (fun kv2 h2 heq => hknotin
          (by rw [heq]; exact List.mem_map_of_mem Prod.fst h2))
      have hp2 := postCond_preserved g1 _ _ kv.1 kv.2 hother.1 hother.2 hp1
      have hcont : (alKeys localE).contains kv.1 = true :=
        contains_of_mem _ _ (by
          rw [hkeys]
          exact List.mem_append.mpr (Or.inr (List.mem_cons_self _ _)))
      have hdel := deletePhase_st_local (allOkApi insF patchF delF) g1 (alKeys localE)
        (processFold (allOkApi insF patchF delF) tz false g1 localE ⟨stats0, st0, []⟩)
        kv.1 hcont
      rw [hfold] at hdel
      have hst2b : st2 = (deletePhase (allOkApi insF patchF delF) g1 (alKeys localE)
          (processFold (allOkApi insF patchF delF) tz false g1 l2
            (processOne (allOkApi insF patchF delF) tz false g1
              (processFold (allOkApi insF patchF delF) tz false g1 l1
                ⟨stats0, st0, []⟩) kv))).st := by
        rw [hst2, hfold]
      rw [hst2b]
      exact postCond_preserved g1 _ _ kv.1 kv.2 hdel.1 hdel.2 hp2
    have hready : ∀ kv ∈ localE, skipReady g2 st2 kv.1 kv.2 := by
      intro kv hmem
      have hp := hpost kv hmem
      refine ⟨hp.1, ?_⟩
      apply resolveExisting_isSome_of
      rcases hp.2 with h2 | h2
      · rcases Option.isSome_iff_exists.mp h2 with ⟨e, he⟩
        exact Or.inl (hSame (kv.1, e) (alGet_mem _ _ _ he))
      · rcases optTruthy_isSome_inv _ h2 with ⟨s, hs, hsne, hopt⟩
        exact Or.inr ⟨s, hopt, hEcho (kv.1, s) (alGet_mem _ _ _ hs)⟩
    have hallskip := processFold_all_skip api2 tz g2 localE stats0 st2 [] hready
    have hkeys2 : ∀ k ∈ alKeys st2.events, (alKeys localE).contains k = true := by
      intro k hk
      rw [hst2] at hk
      exact deletePhase_keys_local _ _ _ _ k hk
    have hnoop2 : deletePhase api2 g2 (alKeys localE)
        (processFold api2 tz false g2 localE ⟨stats0, st2, []⟩)
        = processFold api2 tz false g2 localE ⟨stats0, st2, []⟩ := by
      apply deletePhase_subset_noop
      intro k hk
      rw [hallskip] at hk
      exact hkeys2 k hk
    have hrun2 : runSync api2 tz false localE g2 st2 =
        { stats := { stats0 with skipped := stats0.skipped + localE.length },
          state := st2, ops := [],
          exitNonzero := decide (0 < ({ stats0 with
            skipped := stats0.skipped + localE.length } : Stats).failed) } := by
      unfold runSync
      rw [if_neg hemp, hnoop2, hallskip]
    rw [hrun2]
    refine ⟨rfl, rfl, rfl, rfl, ?_, rfl⟩
    show stats0.skipped + localE.length = localE.length
    exact Nat.zero_add _

theorem c3_second_run_idempotent_witness :
    (runSync c2ApplyApi "America/New_York" false c3wLocal c3wG2
      (runSync (allOkApi (fun _ => "NEW") (fun _ _ => "PID") (fun _ => .ok "")) "America/New_York"
        false c3wLocal [] freshState).state).stats.created = 0 ∧
    (runSync c2ApplyApi "America/New_York" false c3wLocal c3wG2
      (runSync (allOkApi (fun _ => "NEW") (fun _ _ => "PID") (fun _ => .ok "")) "America/New_York"
        false c3wLocal [] freshState).state).stats.updated = 0 ∧
    (runSync c2ApplyApi "America/New_York" false c3wLocal c3wG2
      (runSync (allOkApi (fun _ => "NEW") (fun _ _ => "PID") (fun _ => .ok "")) "America/New_York"
        false c3wLocal [] freshState).state).stats.deleted = 0 ∧
    (runSync c2ApplyApi "America/New_York" false c3wLocal c3wG2
      (runSync (allOkApi (fun _ => "NEW") (fun _ _ => "PID") (fun _ => .ok "")) "America/New_York"
        false c3wLocal [] freshState).state).stats.failed = 0 ∧
    (runSync c2ApplyApi "America/New_York" false c3wLocal c3wG2
      (runSync (allOkApi (fun _ => "NEW") (fun _ _ => "PID") (fun _ => .ok "")) "America/New_York"
        false c3wLocal [] freshState).state).stats.skipped = c3wLocal.length ∧
    (runSync c2ApplyApi "America/New_York" false c3wLocal c3wG2
      (runSync (allOkApi (fun _ => "NEW") (fun _ _ => "PID") (fun _ => .ok "")) "America/New_York"
        false c3wLocal [] freshState).state).ops = [] :=
  c3_second_run_idempotent (fun _ => "NEW") (fun _ _ => "PID") (fun _ => .ok "")
    c2ApplyApi "America/New_York" c3wLocal [] c3wG2 freshState
    (fun k eid => show ("PID" : String) ≠ "" by decide)
    (fun k => show ("NEW" : String) ≠ "" by decide)
    (by decide) (by decide) (by decide) (by decide)

theorem c10_fresh_state_on_load_failure_witness :
    SyncState_load none = freshState ∧
    (SyncState_load none).get_event_hash "K" = none ∧
    RemoteOp.deleteOp "GG" ∉
      (runSync c2ApplyApi "America/New_York" false c2wLocal c2wGoogle
        (SyncState_load none)).ops ∧
    (runSync c2ApplyApi "America/New_York" false c2wLocal c2wGoogle
      (SyncState_load none)).stats.deleted = 0 := by
  have h := c10_fresh_state_on_load_failure none (Or.inl rfl) c2ApplyApi
    "America/New_York" false c2wLocal c2wGoogle
  exact ⟨h.1, h.2.1 "K", h.2.2.1 "GG", h.2.2.2⟩

end CalendarBridge
